import Mathlib

/-!
# One-time secret relay: store protocol and HTTP adapter

A shallow embedding of `internal/storage/redis/redis.go` and
`internal/server/server.go`.

* Go strings are Lean `String`s, `time.Duration` is an `Int` count of
  nanoseconds, a Go `(T, error)` result is a tuple ending in `Option Error`.
* The Redis server is a map from keys to a value and a remaining lifetime;
  every command is one atomic step on that map, which is how a Redis server
  executes commands and scripts.  The passing of time is the explicit step
  `DB.elapse`.
* Handlers are functions on an `Exchange`: the response being written, the
  state of the store, the list of store calls made so far, the log and the
  entropy source.
-/

/-! ## Time -/

/-! A Go `time.Duration` is an `Int`: a signed number of nanoseconds. -/

namespace time

def Millisecond : Int := 1000000

def Second : Int := 1000000000

def Minute : Int := 60 * Second

def Hour : Int := 60 * Minute

end time

/-- Go `error` values that the store can hand back. -/
inductive Error where
  /-- Redis rejects `SET` with a non-positive `EX`/`PX`. -/
  | invalidExpire
  /-- Any other failure of the backend or the connection. -/
  | backend (msg : String)
  deriving DecidableEq, Repr

/-! ## The Redis server -/

namespace redis

/-- One key of the database: its string value and the time it still has to
live in milliseconds (`none`: the key never expires). -/
structure Entry where
  value : String
  ttl : Option Nat
  deriving DecidableEq, Repr

/-- A Redis database. -/
abbrev DB := String → Option Entry

/-- The database without any key. -/
def DB.empty : DB := fun _ => none

def DB.put (db : DB) (key : String) (e : Entry) : DB :=
  fun k => if k = key then some e else db k

def DB.del (db : DB) (key : String) : DB :=
  fun k => if k = key then none else db k

/-- Time passing: `ms` milliseconds later every key whose remaining lifetime
was at most `ms` is gone, the others have that much less to live. -/
def DB.elapse (db : DB) (ms : Nat) : DB :=
  fun k =>
    match db k with
    | none => none
    | some e =>
      match e.ttl with
      | none => some e
      | some left => if left ≤ ms then none else some { e with ttl := some (left - ms) }

/-- Redis `GET key`. -/
def GET (db : DB) (key : String) : Option String :=
  (db key).map Entry.value

/-- Redis `SET key value [PX ms] [NX]`.  The expire time is validated before
the `NX` condition is looked at; the reply is `true` when the key was set. -/
def SET (db : DB) (key value : String) (px : Option Int) (nx : Bool) :
    DB × Except Error Bool :=
  match px with
  | some ms =>
    if ms ≤ 0 then (db, .error .invalidExpire)
    else if nx && (db key).isSome then (db, .ok false)
    else (db.put key ⟨value, some ms.toNat⟩, .ok true)
  | none =>
    if nx && (db key).isSome then (db, .ok false)
    else (db.put key ⟨value, none⟩, .ok true)

/-- Redis `GETDEL key`. -/
def GETDEL (db : DB) (key : String) : DB × Option String :=
  match db key with
  | none => (db, none)
  | some e => (db.del key, some e.value)

/-! ### The go-redis client -/

def KeepTTL : Int := -1

def usePrecise (dur : Int) : Bool :=
  decide (dur < time.Second) || decide (Int.tmod dur time.Second ≠ 0)

def formatMs (dur : Int) : Int :=
  if 0 < dur ∧ dur < time.Millisecond then 1 else Int.tdiv dur time.Millisecond

def formatSec (dur : Int) : Int :=
  if 0 < dur ∧ dur < time.Second then 1 else Int.tdiv dur time.Second

/-- Client method `SetNX(ctx, key, value, expiration)`: `SET key value
[expiration] NX`; a zero expiration means the key has no expiration time. -/
def SetNX (db : DB) (key value : String) (expiration : Int) :
    DB × Except Error Bool :=
  if expiration = 0 then SET db key value none true
  else if expiration = KeepTTL then SET db key value none true
  else if usePrecise expiration then SET db key value (some (formatMs expiration)) true
  else SET db key value (some (formatSec expiration * 1000)) true

/-- Client method `GetDel(ctx, key)`; `none` is the `redis.Nil` reply. -/
def GetDel (db : DB) (key : String) : DB × Option String :=
  GETDEL db key

end redis

/-! ## `internal/storage/redis` -/

namespace redisstore

open redis

/-- The key under which a code is kept. -/
def key (code : String) : String := "msg:" ++ code

/-- The Lua script of `AttachCipher`, run atomically by the server:
```
local v = redis.call('GET', KEYS[1])
if not v then return -1 end
if v ~= '' then return 0 end
redis.call('SET', KEYS[1], ARGV[1], 'EX', ARGV[2])
return 1
```
-/
def script (db : DB) (key1 argv1 : String) (argv2 : Int) : DB × Except Error Int :=
  match GET db key1 with
  | none => (db, .ok (-1))
  | some v =>
    if v ≠ "" then (db, .ok 0)
    else
      match SET db key1 argv1 (some (argv2 * 1000)) false with
      | (db1, .error e) => (db1, .error e)
      | (db1, .ok _) => (db1, .ok 1)

def ReserveCode (db : DB) (code : String) (ttl : Int) : DB × Bool × Option Error :=
  match SetNX db (key code) "" ttl with
  | (db1, .error e) => (db1, false, some e)
  | (db1, .ok ok) => (db1, ok, none)

def AttachCipher (db : DB) (code ciphertext : String) (ttl : Int) :
    DB × Bool × Option Error :=
  let ttlSec := Int.tdiv ttl time.Second
  match script db (key code) ciphertext ttlSec with
  | (db1, .error e) => (db1, false, some e)
  | (db1, .ok res) =>
    if res = 1 then (db1, true, none)
    else if res = 0 then (db1, false, none)
    else (db1, false, none)

def GetAndDelete (db : DB) (code : String) : DB × String × Bool × Option Error :=
  match GetDel db (key code) with
  | (db1, none) => (db1, "", false, none)
  | (db1, some v) => if v = "" then (db1, "", false, none) else (db1, v, true, none)

def Ping (db : DB) : DB × Option Error := (db, none)

/-- `n` calls of `GetAndDelete` on the same code, one after the other, with
the results in call order. -/
def getAndDeleteTimes (db : DB) (code : String) :
    Nat → DB × List (String × Bool × Option Error)
  | 0 => (db, [])
  | n + 1 =>
    let r := GetAndDelete db code
    let rest := getAndDeleteTimes r.1 code n
    (rest.1, r.2 :: rest.2)

/-- The calls `AttachCipher(code, blob, ttl)` for the blobs of a list, one
after the other in list order, with the results in call order. -/
def attachAll (db : DB) (code : String) (ttl : Int) :
    List String → DB × List (Bool × Option Error)
  | [] => (db, [])
  | b :: bs =>
    let r := AttachCipher db code b ttl
    let rest := attachAll r.1 code ttl bs
    (rest.1, r.2 :: rest.2)

/-- A single step of the store as seen from outside: one of its three
operations, or time passing. -/
inductive Op where
  | reserveCode (code : String) (ttl : Int)
  | attachCipher (code ciphertext : String) (ttl : Int)
  | getAndDelete (code : String)
  | elapse (ms : Nat)

def Op.run (db : DB) : Op → DB
  | .reserveCode code ttl => (ReserveCode db code ttl).1
  | .attachCipher code ct ttl => (AttachCipher db code ct ttl).1
  | .getAndDelete code => (GetAndDelete db code).1
  | .elapse ms => db.elapse ms

end redisstore

/-! ## Standard library functions used by the server -/

namespace unicode

/-- Go `unicode.IsSpace`: the code points with the White_Space property. -/
def IsSpace (c : Char) : Bool :=
  let n := c.toNat
  decide ((9 ≤ n ∧ n ≤ 13) ∨ n = 32 ∨ n = 133 ∨ n = 160 ∨ n = 5760 ∨
    (8192 ≤ n ∧ n ≤ 8202) ∨ n = 8232 ∨ n = 8233 ∨ n = 8239 ∨ n = 8287 ∨ n = 12288)

end unicode

namespace strings

/-- Go `strings.TrimSpace`: the string without its leading and trailing white
space. -/
def TrimSpace (s : String) : String :=
  ⟨((s.data.dropWhile unicode.IsSpace).reverse.dropWhile unicode.IsSpace).reverse⟩

def HasPrefix (s pre : String) : Bool :=
  pre.data.isPrefixOf s.data

def TrimPrefix (s pre : String) : String :=
  if HasPrefix s pre then ⟨s.data.drop pre.data.length⟩ else s

end strings

namespace base64

/-- The value of a character of the standard alphabet. -/
def decodeMap (c : Char) : Option Nat :=
  let n := c.toNat
  if 65 ≤ n ∧ n ≤ 90 then some (n - 65)
  else if 97 ≤ n ∧ n ≤ 122 then some (n - 97 + 26)
  else if 48 ≤ n ∧ n ≤ 57 then some (n - 48 + 52)
  else if n = 43 then some 62
  else if n = 47 then some 63
  else none

/-- The three bytes of a quantum of four 6-bit values. -/
def quantum (x y z u : Nat) : List Nat :=
  let val := x * 262144 + y * 4096 + z * 64 + u
  [val / 65536 % 256, val / 256 % 256, val % 256]

/-- Decoding of padded standard base64, quantum by quantum: a group of four
characters gives three bytes, a last group `xx==` one byte and a last group
`xxx=` two bytes; anything else is corrupt input. -/
def decodeQuanta : List Char → Option (List Nat)
  | [] => some []
  | a :: b :: c :: d :: rest =>
    match decodeMap a, decodeMap b with
    | some x, some y =>
      if c = '=' then
        if d = '=' ∧ rest = [] then some ((quantum x y 0 0).take 1) else none
      else
        match decodeMap c with
        | none => none
        | some z =>
          if d = '=' then
            if rest = [] then some ((quantum x y z 0).take 2) else none
          else
            match decodeMap d with
            | none => none
            | some u => (decodeQuanta rest).map (fun bs => quantum x y z u ++ bs)
    | _, _ => none
  | _ => none

/-- Go `base64.StdEncoding.DecodeString`: carriage returns and line feeds in
the input are ignored; `none` is a `CorruptInputError`. -/
def DecodeString (s : String) : Option (List Nat) :=
  decodeQuanta (s.data.filter (fun c => !(c = Char.ofNat 10 || c = Char.ofNat 13)))

end base64

namespace rand

/-- The entropy source `crypto/rand.Reader`: an endless sequence of raw
draws and the position of the next one. -/
structure Reader where
  src : Nat → Nat
  pos : Nat

/-- Go `rand.Int(rand.Reader, max)`: a value in `[0, max)`. -/
def Reader.Int (rd : Reader) (max : Nat) (h : 0 < max) : Fin max × Reader :=
  (⟨rd.src rd.pos % max, Nat.mod_lt _ h⟩, { rd with pos := rd.pos + 1 })

/-- Go `rand.Read(b)` for a buffer of `n` bytes. -/
def Reader.Read (rd : Reader) : Nat → List Nat × Reader
  | 0 => ([], rd)
  | n + 1 =>
    let byte := rd.src rd.pos % 256
    let rest := Reader.Read { rd with pos := rd.pos + 1 } n
    (byte :: rest.1, rest.2)

end rand

/-! ## `internal/storage` -/

namespace storage

/-- The `Storage` interface over a store whose state has type `σ`. -/
structure Storage (σ : Type) where
  ReserveCode : σ → String → Int → σ × Bool × Option Error
  AttachCipher : σ → String → String → Int → σ × Bool × Option Error
  GetAndDelete : σ → String → σ × String × Bool × Option Error
  Ping : σ → σ × Option Error

/-- A call made through the interface, with its arguments. -/
inductive Call where
  | ReserveCode (code : String) (ttl : Int)
  | AttachCipher (code ciphertext : String) (ttl : Int)
  | GetAndDelete (code : String)
  | Ping
  deriving DecidableEq, Repr

end storage

namespace redisstore

/-- The Redis store as an implementation of the interface. -/
def Store : storage.Storage redis.DB where
  ReserveCode := ReserveCode
  AttachCipher := AttachCipher
  GetAndDelete := GetAndDelete
  Ping := Ping

end redisstore

/-! ## `net/http` -/

namespace http

def StatusOK : Nat := 200
def StatusCreated : Nat := 201
def StatusNoContent : Nat := 204
def StatusBadRequest : Nat := 400
def StatusNotFound : Nat := 404
def StatusMethodNotAllowed : Nat := 405
def StatusConflict : Nat := 409
def StatusTooManyRequests : Nat := 429
def StatusInternalServerError : Nat := 500

def MethodGet : String := "GET"
def MethodPost : String := "POST"
def MethodPut : String := "PUT"
def MethodOptions : String := "OPTIONS"

structure Request where
  Method : String
  Path : String
  Origin : String
  Body : String

/-- The response under construction: headers, the status once it has been
written, and the body written so far. -/
structure ResponseWriter where
  header : List (String × String)
  code : Option Nat
  body : String

def ResponseWriter.new : ResponseWriter := ⟨[], none, ""⟩

def ResponseWriter.Set (w : ResponseWriter) (k v : String) : ResponseWriter :=
  { w with header := (w.header.filter (fun kv => kv.1 ≠ k)) ++ [(k, v)] }

def ResponseWriter.Get (w : ResponseWriter) (k : String) : String :=
  ((w.header.find? (fun kv => kv.1 = k)).map Prod.snd).getD ""

/-- Only the first status written counts. -/
def ResponseWriter.WriteHeader (w : ResponseWriter) (status : Nat) : ResponseWriter :=
  match w.code with
  | none => { w with code := some status }
  | some _ => w

/-- Writing the body sends status 200 when none was written before. -/
def ResponseWriter.Write (w : ResponseWriter) (b : String) : ResponseWriter :=
  let w1 := w.WriteHeader StatusOK
  { w1 with body := w1.body ++ b }

/-- The status the client receives. -/
def ResponseWriter.status (w : ResponseWriter) : Nat :=
  w.code.getD StatusOK

/-- Reading all of a body wrapped in `http.MaxBytesReader(w, body, max)`:
an error (`none`) when the body has more than `max` bytes. -/
def readAllMaxBytes (body : String) (max : Int) : Option String :=
  if max < (body.utf8ByteSize : Int) then none else some body

end http

/-! ## `internal/server` -/

namespace server

open storage http

structure Config where
  Addr : String
  PlaceholderTTL : Int
  MessageTTL : Int
  ReadTimeout : Int
  ReadHeaderTimeout : Int
  WriteTimeout : Int
  IdleTimeout : Int
  MaxBodyBytes : Int
  AllowedOrigins : List String
  RateLimitRPS : Int
  RateBurst : Int

/-- The zero value of `Config`. -/
def Config.zero : Config := ⟨"", 0, 0, 0, 0, 0, 0, 0, [], 0, 0⟩

/-- A buffered `chan struct{}`: its capacity and the number of elements
waiting in it. -/
structure Chan where
  cap : Nat
  len : Nat
  deriving DecidableEq, Repr

/-- The server.  `log` tells whether a logger is set; `tokens` is `none` for
the nil channel. -/
structure Server (σ : Type) where
  cfg : Config
  store : Storage σ
  log : Bool
  tokens : Option Chan

/-- A line of the log: level, message, endpoint. -/
structure LogLine where
  level : String
  msg : String
  endpoint : String
  deriving DecidableEq, Repr

/-- What a handler works on: the response, the state of the store, the calls
made to the store so far, the log written so far and the entropy source. -/
structure Exchange (σ : Type) where
  w : ResponseWriter
  st : σ
  calls : List Call
  logs : List LogLine
  rd : rand.Reader

/-- The exchange at the arrival of a request. -/
def Exchange.start {σ : Type} (st : σ) (rd : rand.Reader) : Exchange σ :=
  ⟨ResponseWriter.new, st, [], [], rd⟩

variable {σ : Type}

def Exchange.WriteHeader (x : Exchange σ) (status : Nat) : Exchange σ :=
  { x with w := x.w.WriteHeader status }

def Exchange.Set (x : Exchange σ) (k v : String) : Exchange σ :=
  { x with w := x.w.Set k v }

/-- The guarded logging `if s.log != nil { s.log.X(msg, ...) }`. -/
def Server.logLine (s : Server σ) (x : Exchange σ) (level msg endpoint : String) :
    Exchange σ :=
  if s.log then { x with logs := x.logs ++ [⟨level, msg, endpoint⟩] } else x

/-- The constructor without the routes.  With a positive rate the channel is
made with the burst as capacity and nothing in it, and a ticker of period
`time.Second / RateLimitRPS` is started; `time.NewTicker` panics on a
non-positive period, which is the result `none`. -/
def New (cfg : Config) (st : Storage σ) (lg : Bool) : Option (Server σ) :=
  if 0 < cfg.RateLimitRPS then
    let burst := if cfg.RateBurst ≤ 0 then cfg.RateLimitRPS else cfg.RateBurst
    if Int.tdiv time.Second cfg.RateLimitRPS ≤ 0 then none
    else some ⟨cfg, st, lg, some ⟨burst.toNat, 0⟩⟩
  else some ⟨cfg, st, lg, none⟩

/-- One tick of the refill goroutine:
`select { case s.tokens <- struct{}{}: default: }`. -/
def Server.refill (s : Server σ) : Server σ :=
  match s.tokens with
  | none => s
  | some ch => if ch.len < ch.cap then { s with tokens := some { ch with len := ch.len + 1 } } else s

def Server.secHeaders (_s : Server σ) (x : Exchange σ) : Exchange σ :=
  let x := x.Set "Referrer-Policy" "no-referrer"
  let x := x.Set "Cache-Control" "no-store"
  let x := x.Set "X-Content-Type-Options" "nosniff"
  x.Set "Pragma" "no-cache"

def Server.corsHeaders (s : Server σ) (x : Exchange σ) (r : Request) : Exchange σ :=
  if s.cfg.AllowedOrigins.length = 0 then x
  else
    let o := r.Origin
    if o = "" then x
    else if s.cfg.AllowedOrigins.any (fun a => a = "*" || a = o) then
      let x := x.Set "Access-Control-Allow-Origin" o
      let x := x.Set "Vary" "Origin"
      let x := x.Set "Access-Control-Allow-Methods" "GET,PUT,POST,OPTIONS"
      x.Set "Access-Control-Allow-Headers" "Content-Type,X-Request-Id"
    else x

def hex : String := "0123456789abcdef"

def Server.requestID (_s : Server σ) (rd : rand.Reader) : String × rand.Reader :=
  let b := rd.Read 16
  (⟨b.1.flatMap (fun v => [hex.data.getD (v / 16) '0', hex.data.getD (v % 16) '0'])⟩, b.2)

/-- Non-blocking receive from the token channel. -/
def Server.allow (s : Server σ) : Bool × Server σ :=
  match s.tokens with
  | none => (true, s)
  | some ch =>
    if 0 < ch.len then (true, { s with tokens := some { ch with len := ch.len - 1 } })
    else (false, s)

def letters : String := "ABCDEFGHJKLMNPQRSTUVWXYZabcdefghijkmnopqrstuvwxyz23456789"

/-- The loop of `generateCode`: `k` more characters appended to `acc`. -/
def generateCodeLoop : Nat → rand.Reader → List Char → List Char × rand.Reader
  | 0, rd, acc => (acc, rd)
  | k + 1, rd, acc =>
    let idx := rd.Int letters.data.length (by decide)
    generateCodeLoop k idx.2 (acc ++ [letters.data.get idx.1])

def Server.generateCode (_s : Server σ) (rd : rand.Reader) (n : Int) : String × rand.Reader :=
  let r := generateCodeLoop n.toNat rd []
  (⟨r.1⟩, r.2)

/-- The body `json.NewEncoder(w).Encode` writes for a map of plain strings
(keys in sorted order). -/
def jsonObject (kvs : List (String × String)) : String :=
  "\x7b" ++ ",".intercalate (kvs.map (fun kv => "\"" ++ kv.1 ++ "\":\"" ++ kv.2 ++ "\"")) ++ "\x7d\n"

/-- The `for` loop of `postCode`, run for at most `fuel` rounds.  `none`: the
loop is still running after `fuel` rounds; otherwise the exchange and the
reserved code, or no code when the handler has answered with an error. -/
def Server.postCodeLoop (s : Server σ) : Nat → Exchange σ → Option (Exchange σ × Option String)
  | 0, _ => none
  | fuel + 1, x =>
    let g := s.generateCode x.rd 8
    let code := g.1
    let r := s.store.ReserveCode x.st code s.cfg.PlaceholderTTL
    let x := { x with rd := g.2, st := r.1,
                      calls := x.calls ++ [Call.ReserveCode code s.cfg.PlaceholderTTL] }
    match r.2.2 with
    | some _ =>
      let x := s.logLine x "error" "reserve_code_error" "code"
      some (x.WriteHeader StatusInternalServerError, none)
    | none => if r.2.1 then some (x, some code) else s.postCodeLoop fuel x

def Server.postCode (s : Server σ) (fuel : Nat) (x : Exchange σ) (r : Request) :
    Option (Exchange σ) :=
  if r.Method ≠ MethodPost then some (x.WriteHeader StatusMethodNotAllowed)
  else
    match s.postCodeLoop fuel x with
    | none => none
    | some (x, none) => some x
    | some (x, some code) =>
      let x := x.Set "Content-Type" "application/json"
      let x := x.Set "Location" ("/message/" ++ code)
      let x := x.WriteHeader StatusCreated
      some { x with w := x.w.Write (jsonObject [("code", code)]) }

def Server.putMessage (s : Server σ) (x : Exchange σ) (r : Request) : Exchange σ :=
  let x := s.secHeaders x
  let code := strings.TrimPrefix r.Path "/message/"
  let max := if s.cfg.MaxBodyBytes ≤ 0 then 1048576 else s.cfg.MaxBodyBytes
  match readAllMaxBytes r.Body max with
  | none =>
    (s.logLine x "warn" "body_read_error" "message_put").WriteHeader StatusBadRequest
  | some body =>
    let ct := strings.TrimSpace body
    if ct = "" then
      (s.logLine x "warn" "empty_body" "message_put").WriteHeader StatusBadRequest
    else
      match base64.DecodeString ct with
      | none =>
        (s.logLine x "warn" "invalid_base64" "message_put").WriteHeader StatusBadRequest
      | some buf =>
        if buf.length < 13 then
          (s.logLine x "warn" "invalid_base64" "message_put").WriteHeader StatusBadRequest
        else
          let iv := buf.take 12
          if iv.length ≠ 12 ∨ (buf.drop 12).length = 0 then
            (s.logLine x "warn" "invalid_iv" "message_put").WriteHeader StatusBadRequest
          else
            let a := s.store.AttachCipher x.st code ct s.cfg.MessageTTL
            let x := { x with st := a.1,
                              calls := x.calls ++ [Call.AttachCipher code ct s.cfg.MessageTTL] }
            match a.2.2 with
            | some _ =>
              (s.logLine x "error" "attach_cipher_error" "message_put").WriteHeader
                StatusInternalServerError
            | none =>
              if !a.2.1 then
                (s.logLine x "warn" "attach_conflict" "message_put").WriteHeader StatusConflict
              else x.WriteHeader StatusNoContent

def Server.getMessage (s : Server σ) (x : Exchange σ) (r : Request) : Exchange σ :=
  let code := strings.TrimPrefix r.Path "/message/"
  let g := s.store.GetAndDelete x.st code
  let x := { x with st := g.1, calls := x.calls ++ [Call.GetAndDelete code] }
  match g.2.2.2 with
  | some _ =>
    (s.logLine x "error" "get_delete_error" "message_get").WriteHeader
      StatusInternalServerError
  | none =>
    if !g.2.2.1 then x.WriteHeader StatusNotFound
    else
      let x := x.Set "Content-Type" "text/plain"
      { x with w := x.w.Write g.2.1 }

def Server.message (s : Server σ) (x : Exchange σ) (r : Request) : Exchange σ :=
  if !strings.HasPrefix r.Path "/message/" then x.WriteHeader StatusNotFound
  else if r.Method = MethodPut then s.putMessage x r
  else if r.Method = MethodGet then s.getMessage x r
  else x.WriteHeader StatusMethodNotAllowed

def Server.health (s : Server σ) (x : Exchange σ) (_r : Request) : Exchange σ :=
  let p := s.store.Ping x.st
  let x := { x with st := p.1, calls := x.calls ++ [Call.Ping] }
  let st := if p.2.isSome then "error" else "ok"
  let x := x.Set "Content-Type" "application/json"
  { x with w := x.w.Write (jsonObject [("redis", st), ("status", "ok")]) }

/-- The routes registered in `New`, for a request path in canonical form:
`/code`, the subtree `/message/`, `/health`, and 404 for the rest. -/
def Server.mux (s : Server σ) (fuel : Nat) (x : Exchange σ) (r : Request) :
    Option (Exchange σ) :=
  if r.Path = "/code" then s.postCode fuel x r
  else if strings.HasPrefix r.Path "/message/" then some (s.message x r)
  else if r.Path = "/health" then some (s.health x r)
  else
    let x := x.Set "Content-Type" "text/plain; charset=utf-8"
    let x := x.WriteHeader StatusNotFound
    some { x with w := x.w.Write "404 page not found\n" }

/-- The handler installed as `s.router` and returned by `Handler()`. -/
def Server.Handler (s : Server σ) (fuel : Nat) (x : Exchange σ) (r : Request) :
    Option (Exchange σ × Server σ) :=
  let x := s.secHeaders x
  let x := s.corsHeaders x r
  if r.Method = MethodOptions then some (x.WriteHeader StatusNoContent, s)
  else
    let rid := s.requestID x.rd
    let x := { x with rd := rid.2 }
    let x := x.Set "X-Request-Id" rid.1
    let a := s.allow
    if !a.1 then some (x.WriteHeader StatusTooManyRequests, a.2)
    else (a.2.mux fuel x r).map (fun y => (y, a.2))

/-- Admission attempts one after the other with no refill tick in between:
the outcomes in order and the server afterwards. -/
def Server.allowTimes (s : Server σ) : Nat → List Bool × Server σ
  | 0 => ([], s)
  | n + 1 =>
    let a := s.allow
    let rest := a.2.allowTimes n
    (a.1 :: rest.1, rest.2)

/-- The server after `n` refill ticks. -/
def Server.refillTimes (s : Server σ) : Nat → Server σ
  | 0 => s
  | n + 1 => s.refill.refillTimes n

/-! ### The fixtures of `server_test.go` -/

/-- The store of the tests, which answers every call from fixed fields and
keeps no state. -/
structure mockStore where
  reserveOK : Bool
  attachOK : Bool
  attachErr : Option Error
  getVal : String
  getOK : Bool
  getErr : Option Error
  pingErr : Option Error

/-- The zero value `&mockStore{}`. -/
def mockStore.zero : mockStore := ⟨false, false, none, "", false, none, none⟩

def mockStore.storage (m : mockStore) : Storage Unit where
  ReserveCode := fun st _ _ => (st, m.reserveOK, none)
  AttachCipher := fun st _ _ _ => (st, m.attachOK, m.attachErr)
  GetAndDelete := fun st _ => (st, m.getVal, m.getOK, m.getErr)
  Ping := fun st => (st, m.pingErr)

/-- The error value of the tests. -/
def assertErr : Error := Error.backend "err"

/-- The configuration of `newTestServer`. -/
def testConfig : Config :=
  { Config.zero with Addr := ":0", PlaceholderTTL := time.Minute, MessageTTL := time.Hour }

/-- The server `newTestServer` builds: `New` with the test configuration, a
logger that discards everything, and no rate limit. -/
def newTestServer (st : Storage σ) : Server σ := ⟨testConfig, st, true, none⟩

/-- An entropy source whose draws are all zero. -/
def zeroReader : rand.Reader := ⟨fun _ => 0, 0⟩

end server

/-! # Properties of the store -/

namespace redisstore

open redis

theorem key_inj {a b : String} (h : key a = key b) : a = b := by
  unfold key at h
  have h1 := String.ext_iff.mp h
  rw [String.data_append, String.data_append] at h1
  exact String.ext_iff.mpr (List.append_cancel_left h1)

theorem put_same (db : DB) (k : String) (e : Entry) : (db.put k e) k = some e := by
  simp [DB.put]

theorem put_other (db : DB) {k k1 : String} (e : Entry) (h : k1 ≠ k) :
    (db.put k e) k1 = db k1 := by
  simp [DB.put, h]

theorem del_same (db : DB) (k : String) : (db.del k) k = none := by
  simp [DB.del]

theorem del_other (db : DB) {k k1 : String} (h : k1 ≠ k) : (db.del k) k1 = db k1 := by
  simp [DB.del, h]

/-- The lifetime in milliseconds that `SetNX` gives a key for a positive
expiration. -/
theorem setnx_lifetime {ttl : Int} (h : 0 < ttl) :
    (if usePrecise ttl then formatMs ttl else formatSec ttl * 1000)
      = max 1 (ttl / 1000000) := by
  have hs : Int.tmod ttl time.Second = ttl % 1000000000 := by
    rw [Int.tmod_eq_emod (le_of_lt h) (by decide)]; rfl
  have hm : Int.tdiv ttl time.Millisecond = ttl / 1000000 := by
    rw [Int.tdiv_eq_ediv (le_of_lt h) (by decide)]; rfl
  have hq : Int.tdiv ttl time.Second = ttl / 1000000000 := by
    rw [Int.tdiv_eq_ediv (le_of_lt h) (by decide)]; rfl
  unfold usePrecise formatMs formatSec
  rw [hs, hm, hq]
  simp only [time.Second, time.Millisecond]
  by_cases h1 : ttl < 1000000000
  · simp only [h1, decide_True, Bool.true_or, if_true]
    split_ifs <;> omega
  · by_cases h2 : ttl % 1000000000 = 0
    · simp only [h1, h2, decide_False, ne_eq, not_true_eq_false, Bool.or_self,
        Bool.false_eq_true, if_false, and_false]
      clear hs hm hq
      omega
    · simp only [h1, h2, decide_False, ne_eq, not_false_eq_true, decide_True, Bool.or_true,
        if_true]
      split_ifs <;> omega

theorem reserve_absent {db : DB} {c : String} {ttl : Int}
    (habs : db (key c) = none) (httl : 0 ≤ ttl) :
    ReserveCode db c ttl =
      (db.put (key c) ⟨"", if ttl = 0 then none else some (max 1 (ttl / 1000000)).toNat⟩,
        true, none) := by
  unfold ReserveCode SetNX
  by_cases h0 : ttl = 0
  · simp [h0, SET, habs]
  · have hk : ttl ≠ KeepTTL := by unfold KeepTTL; omega
    have hpos : 0 < ttl := by omega
    have hl := setnx_lifetime hpos
    have h1 : (1 : Int) ≤ max 1 (ttl / 1000000) := le_max_left _ _
    by_cases hp : usePrecise ttl = true
    · rw [if_pos hp] at hl
      simp only [h0, hk, hp, if_false, if_true, SET, hl, habs]
      have : ¬ (max 1 (ttl / 1000000) ≤ 0) := by omega
      simp [this]
    · rw [if_neg hp] at hl
      simp only [h0, hk, hp, if_false, SET, hl, habs]
      have : ¬ (max 1 (ttl / 1000000) ≤ 0) := by omega
      simp [this]

theorem reserve_present {db : DB} {c : String} (ttl : Int) {e : Entry}
    (hpre : db (key c) = some e) :
    (ReserveCode db c ttl).1 = db ∧ (ReserveCode db c ttl).2.1 = false := by
  unfold ReserveCode SetNX SET
  simp only [hpre, Option.isSome_some, Bool.and_self]
  split_ifs <;> simp

theorem reserve_error {db : DB} {c : String} {ttl : Int} {e : Error}
    (herr : (ReserveCode db c ttl).2.2 = some e) :
    (ReserveCode db c ttl).1 = db ∧ (ReserveCode db c ttl).2.1 = false := by
  revert herr
  unfold ReserveCode SetNX SET
  split_ifs <;> simp <;> split_ifs <;> simp

theorem attach_absent {db : DB} {c : String} (b : String) (ttl : Int)
    (habs : db (key c) = none) : AttachCipher db c b ttl = (db, false, none) := by
  simp [AttachCipher, script, GET, habs]

theorem attach_populated {db : DB} {c v : String} {t : Option Nat} (b : String)
    (ttl : Int) (hpop : db (key c) = some ⟨v, t⟩) (hv : v ≠ "") :
    AttachCipher db c b ttl = (db, false, none) := by
  simp [AttachCipher, script, GET, hpop, hv]

theorem attach_reserved {db : DB} {c : String} {t : Option Nat} (b : String)
    {ttl : Int} (hres : db (key c) = some ⟨"", t⟩) (httl : time.Second ≤ ttl) :
    AttachCipher db c b ttl =
      (db.put (key c) ⟨b, some (ttl / 1000000000 * 1000).toNat⟩, true, none) := by
  have hq : Int.tdiv ttl time.Second = ttl / 1000000000 := by
    rw [Int.tdiv_eq_ediv (by unfold time.Second at httl; omega) (by decide)]; rfl
  have hpos : ¬ (ttl / 1000000000 * 1000 ≤ 0) := by
    unfold time.Second at httl; omega
  simp [AttachCipher, script, GET, hres, SET, hq, hpos]

theorem getdel_absent {db : DB} {c : String} (habs : db (key c) = none) :
    GetAndDelete db c = (db, "", false, none) := by
  simp [GetAndDelete, GetDel, GETDEL, habs]

theorem getdel_populated {db : DB} {c v : String} {t : Option Nat}
    (hpop : db (key c) = some ⟨v, t⟩) (hv : v ≠ "") :
    GetAndDelete db c = (db.del (key c), v, true, none) := by
  simp [GetAndDelete, GetDel, GETDEL, hpop, hv]

theorem getdel_reserved {db : DB} {c : String} {t : Option Nat}
    (hres : db (key c) = some ⟨"", t⟩) :
    GetAndDelete db c = (db.del (key c), "", false, none) := by
  simp [GetAndDelete, GetDel, GETDEL, hres]

theorem getdel_times_absent (db : DB) (c : String) (habs : db (key c) = none) (n : Nat) :
    getAndDeleteTimes db c n = (db, List.replicate n ("", false, none)) := by
  induction n with
  | zero => rfl
  | succ n ih =>
    simp only [getAndDeleteTimes, getdel_absent habs, ih, List.replicate_succ]

end redisstore

namespace redisstore

open redis

theorem reserve_frame (db : DB) (c : String) (ttl : Int) {k : String} (hk : k ≠ key c) :
    (ReserveCode db c ttl).1 k = db k := by
  unfold ReserveCode SetNX SET
  split_ifs <;> simp [DB.put, hk] <;> split_ifs <;> simp [DB.put, hk]

theorem attach_frame (db : DB) (c b : String) (ttl : Int) {k : String} (hk : k ≠ key c) :
    (AttachCipher db c b ttl).1 k = db k := by
  unfold AttachCipher script SET
  cases hg : GET db (key c) with
  | none => simp
  | some v =>
    by_cases hv : v = ""
    · by_cases hx : ttl.tdiv time.Second * 1000 ≤ 0
      · simp [hv, hx]
      · simp [hv, hx, DB.put, hk]
    · simp [hv]

theorem getdel_frame (db : DB) (c : String) {k : String} (hk : k ≠ key c) :
    (GetAndDelete db c).1 k = db k := by
  unfold GetAndDelete GetDel GETDEL
  cases hg : db (key c) with
  | none => simp
  | some e =>
    by_cases hv : e.value = "" <;> simp [hv, DB.del, hk]

theorem attach_all_populated {db : DB} {c v : String} {t : Option Nat} (ttl : Int)
    (hpop : db (key c) = some ⟨v, t⟩) (hv : v ≠ "") (bs : List String) :
    attachAll db c ttl bs = (db, List.replicate bs.length (false, none)) := by
  induction bs with
  | nil => rfl
  | cons b bs ih =>
    simp only [attachAll, attach_populated b ttl hpop hv, ih, List.length_cons,
      List.replicate_succ]

/-- C1. Round trip and single consumption at the store: when code `c` is
absent and the blob `b` is not empty (as every blob that passed the PUT
validation is), `ReserveCode(c)` and then `AttachCipher(c, b)` both return
true without error, the next `GetAndDelete(c)` returns `(b, true)` with
exactly `b`, and each of any number `n` of further `GetAndDelete(c)` calls
returns found=false, so that exactly one of the `n + 1` reads receives the
blob.  The placeholder TTL is any non-negative duration and the message TTL
is at least one second, the expire times the backend accepts. -/
theorem C1_round_trip_single_consumption (db : DB) (c b : String) (ttl1 ttl2 : Int)
    (n : Nat) (habs : db (key c) = none) (hb : b ≠ "") (h1 : 0 ≤ ttl1)
    (h2 : time.Second ≤ ttl2) :
    (ReserveCode db c ttl1).2 = (true, none) ∧
    (AttachCipher (ReserveCode db c ttl1).1 c b ttl2).2 = (true, none) ∧
    (GetAndDelete (AttachCipher (ReserveCode db c ttl1).1 c b ttl2).1 c).2
      = (b, true, none) ∧
    (getAndDeleteTimes
      (GetAndDelete (AttachCipher (ReserveCode db c ttl1).1 c b ttl2).1 c).1 c n).2
      = List.replicate n ("", false, none) ∧
    List.countP (fun r => r.2.1)
      ((GetAndDelete (AttachCipher (ReserveCode db c ttl1).1 c b ttl2).1 c).2 ::
        (getAndDeleteTimes
          (GetAndDelete (AttachCipher (ReserveCode db c ttl1).1 c b ttl2).1 c).1 c n).2)
      = 1 := by
  rw [reserve_absent habs h1]
  rw [attach_reserved b (put_same _ _ _) h2]
  rw [getdel_populated (put_same _ _ _) hb]
  rw [getdel_times_absent _ _ (del_same _ _)]
  refine ⟨rfl, rfl, rfl, rfl, ?_⟩
  rw [List.countP_cons_of_pos]
  · simp [List.countP_eq_zero]
  · rfl

theorem C1_round_trip_single_consumption_witness :
    (ReserveCode DB.empty "abc" time.Minute).2 = (true, none) ∧
    (AttachCipher (ReserveCode DB.empty "abc" time.Minute).1 "abc" "data" time.Minute).2
      = (true, none) ∧
    (GetAndDelete (AttachCipher (ReserveCode DB.empty "abc" time.Minute).1 "abc" "data"
      time.Minute).1 "abc").2 = ("data", true, none) ∧
    (getAndDeleteTimes (GetAndDelete (AttachCipher (ReserveCode DB.empty "abc"
      time.Minute).1 "abc" "data" time.Minute).1 "abc").1 "abc" 3).2
      = List.replicate 3 ("", false, none) ∧
    List.countP (fun r => r.2.1)
      ((GetAndDelete (AttachCipher (ReserveCode DB.empty "abc" time.Minute).1 "abc" "data"
        time.Minute).1 "abc").2 ::
        (getAndDeleteTimes (GetAndDelete (AttachCipher (ReserveCode DB.empty "abc"
          time.Minute).1 "abc" "data" time.Minute).1 "abc").1 "abc" 3).2) = 1 :=
  C1_round_trip_single_consumption DB.empty "abc" "data" time.Minute time.Minute 3 rfl
    (by decide) (by decide) (by decide)

/-- C2. Single attachment: when code `c` is reserved-empty and the calls
`AttachCipher(c, blob)` are applied one after the other, as atomic steps, for
a list of one or more non-empty blobs taken in any order, the first call
applied returns attached=true, every other call returns attached=false, so
exactly one call wins, and the value stored under `c` afterwards is the blob
of that winner.  The message TTL is at least one second. -/
theorem C2_single_attachment (db : DB) (c : String) (t : Option Nat) (ttl : Int)
    (blobs order : List String) (hres : db (key c) = some ⟨"", t⟩)
    (httl : time.Second ≤ ttl) (hne : ∀ b ∈ blobs, b ≠ "") (hn : 1 ≤ blobs.length)
    (hperm : order.Perm blobs) :
    ∃ winner rest, order = winner :: rest ∧
      (attachAll db c ttl order).2
        = (true, none) :: List.replicate rest.length (false, none) ∧
      List.countP (fun r => r.1) (attachAll db c ttl order).2 = 1 ∧
      ((attachAll db c ttl order).1 (key c)).map Entry.value = some winner := by
  cases order with
  | nil =>
    have := hperm.length_eq
    simp at this
    omega
  | cons w rest =>
    have hw : w ≠ "" := hne w (hperm.subset (List.mem_cons_self _ _))
    refine ⟨w, rest, rfl, ?_⟩
    have e : attachAll db c ttl (w :: rest)
        = (db.put (key c) ⟨w, some (ttl / 1000000000 * 1000).toNat⟩,
            (true, none) :: List.replicate rest.length (false, none)) := by
      simp only [attachAll, attach_reserved w hres httl,
        attach_all_populated ttl (put_same _ _ _) hw]
    rw [e]
    refine ⟨rfl, ?_, ?_⟩
    · rw [List.countP_cons_of_pos]
      · simp [List.countP_eq_zero]
      · rfl
    · simp [put_same]

theorem C2_single_attachment_witness :
    ∃ winner rest, ["bb", "a", "ccc"] = winner :: rest ∧
      (attachAll (DB.empty.put (key "abc") ⟨"", some 60000⟩) "abc" time.Hour
        ["bb", "a", "ccc"]).2
        = (true, none) :: List.replicate rest.length (false, none) ∧
      List.countP (fun r => r.1)
        (attachAll (DB.empty.put (key "abc") ⟨"", some 60000⟩) "abc" time.Hour
          ["bb", "a", "ccc"]).2 = 1 ∧
      ((attachAll (DB.empty.put (key "abc") ⟨"", some 60000⟩) "abc" time.Hour
        ["bb", "a", "ccc"]).1 (key "abc")).map Entry.value = some winner :=
  C2_single_attachment (DB.empty.put (key "abc") ⟨"", some 60000⟩) "abc" (some 60000)
    time.Hour ["a", "bb", "ccc"] ["bb", "a", "ccc"] (by decide) (by decide) (by decide)
    (by decide) (by decide)

/-- C3. Populated is a one-way state: when the key of code `c` holds the
non-empty value `v`, then after any single step of the store (`ReserveCode`,
`AttachCipher` with any blob, `GetAndDelete`, on any code and with any TTL,
or the passing of any amount of time) the key is either absent or still holds
exactly `v`; in particular it is never reserved-empty again and never holds
another blob.  `AttachCipher` on the populated code returns attached=false
without error and leaves the whole store as it was. -/
theorem C3_populated_one_way (db : DB) (c v : String) (t : Option Nat)
    (hpop : db (key c) = some ⟨v, t⟩) (hv : v ≠ "") :
    (∀ op : Op, (op.run db) (key c) = none ∨
      ∃ t1, (op.run db) (key c) = some ⟨v, t1⟩) ∧
    (∀ (b : String) (ttl : Int), AttachCipher db c b ttl = (db, false, none)) := by
  refine ⟨fun op => ?_, fun b ttl => attach_populated b ttl hpop hv⟩
  cases op with
  | reserveCode code ttl =>
    right
    refine ⟨t, ?_⟩
    by_cases hc : code = c
    · subst hc
      simp only [Op.run, (reserve_present ttl hpop).1, hpop]
    · have hk : key c ≠ key code := fun h => hc (key_inj h).symm
      simp only [Op.run, reserve_frame db code ttl hk, hpop]
  | attachCipher code ct ttl =>
    right
    refine ⟨t, ?_⟩
    by_cases hc : code = c
    · subst hc
      simp only [Op.run, attach_populated ct ttl hpop hv, hpop]
    · have hk : key c ≠ key code := fun h => hc (key_inj h).symm
      simp only [Op.run, attach_frame db code ct ttl hk, hpop]
  | getAndDelete code =>
    by_cases hc : code = c
    · subst hc
      left
      simp only [Op.run, getdel_populated hpop hv, del_same]
    · right
      have hk : key c ≠ key code := fun h => hc (key_inj h).symm
      exact ⟨t, by simp only [Op.run, getdel_frame db code hk, hpop]⟩
  | elapse ms =>
    simp only [Op.run, DB.elapse, hpop]
    cases t with
    | none => right; exact ⟨none, rfl⟩
    | some left =>
      by_cases hl : left ≤ ms
      · left; simp [hl]
      · right; exact ⟨some (left - ms), by simp [hl]⟩

theorem C3_populated_one_way_witness :
    (∀ op : Op, (op.run (DB.empty.put (key "abc") ⟨"data", some 5⟩)) (key "abc") = none ∨
      ∃ t1, (op.run (DB.empty.put (key "abc") ⟨"data", some 5⟩)) (key "abc")
        = some ⟨"data", t1⟩) ∧
    (∀ (b : String) (ttl : Int),
      AttachCipher (DB.empty.put (key "abc") ⟨"data", some 5⟩) "abc" b ttl
        = (DB.empty.put (key "abc") ⟨"data", some 5⟩, false, none)) :=
  C3_populated_one_way (DB.empty.put (key "abc") ⟨"data", some 5⟩) "abc" "data" (some 5)
    (by decide) (by decide)

end redisstore

namespace redisstore

open redis

theorem reserve_absent_cases {db : DB} {c : String} (ttl : Int)
    (habs : db (key c) = none) :
    ReserveCode db c ttl = (db, false, some Error.invalidExpire) ∨
    ∃ life, ReserveCode db c ttl = (db.put (key c) ⟨"", life⟩, true, none) := by
  unfold ReserveCode SetNX SET
  simp only [habs, Option.isSome_none, Bool.and_false, Bool.false_eq_true, if_false]
  split_ifs
  · exact Or.inr ⟨none, rfl⟩
  · exact Or.inr ⟨none, rfl⟩
  · exact Or.inl rfl
  · exact Or.inr ⟨_, rfl⟩
  · exact Or.inl rfl
  · exact Or.inr ⟨_, rfl⟩

theorem reserve_present_ok {db : DB} {c : String} {ttl : Int} {e : Entry}
    (hpre : db (key c) = some e) (httl : 0 ≤ ttl) :
    ReserveCode db c ttl = (db, false, none) := by
  unfold ReserveCode SetNX
  by_cases h0 : ttl = 0
  · simp [h0, SET, hpre]
  · have hk : ttl ≠ KeepTTL := by unfold KeepTTL; omega
    have hpos : 0 < ttl := by omega
    have hl := setnx_lifetime hpos
    by_cases hp : usePrecise ttl = true
    · rw [if_pos hp] at hl
      simp only [h0, hk, hp, if_false, if_true, SET, hl, hpre]
      have : ¬ (max 1 (ttl / 1000000) ≤ 0) := by omega
      simp [this]
    · rw [if_neg hp] at hl
      simp only [h0, hk, hp, if_false, SET, hl, hpre]
      have : ¬ (max 1 (ttl / 1000000) ≤ 0) := by omega
      simp [this]

/-- A ttl below -1ns is refused by the backend whatever the state of the key:
the call returns created=false with the error and changes nothing. -/
theorem reserve_refused (db : DB) (c : String) {ttl : Int} (h : ttl < -1) :
    ReserveCode db c ttl = (db, false, some Error.invalidExpire) := by
  have h0 : ttl ≠ 0 := by omega
  have hk : ttl ≠ KeepTTL := by unfold KeepTTL; omega
  have hp : usePrecise ttl = true := by
    have : ttl < time.Second := by unfold time.Second; omega
    simp [usePrecise, this]
  have hms : formatMs ttl ≤ 0 := by
    have hneg : ¬ (0 < ttl ∧ ttl < time.Millisecond) := by omega
    have e : ttl = -(-ttl) := by omega
    unfold formatMs
    rw [if_neg hneg, e, Int.neg_tdiv, Int.tdiv_eq_ediv (by omega) (by decide)]
    unfold time.Millisecond
    omega
  simp [ReserveCode, SetNX, SET, h0, hk, hp, hms]

/-- C5, the claim refuted on two instances.  On a store where the key of the
code does not exist, `ReserveCode` with a ttl of -5 seconds returns
created=false, with the error of the backend, although the key was absent;
and with a ttl of -1 nanosecond (the `KeepTTL` value of the client) it returns
created=true and creates the key with no expiry, not with the given ttl. -/
theorem C5_reserve_every_ttl_counterexample :
    DB.empty (key "abc") = none ∧
    (ReserveCode DB.empty "abc" (-5 * time.Second)).2 = (false, some Error.invalidExpire) ∧
    (ReserveCode DB.empty "abc" (-5 * time.Second)).1 (key "abc") = none ∧
    (ReserveCode DB.empty "abc" (-1)).2 = (true, none) ∧
    (ReserveCode DB.empty "abc" (-1)).1 (key "abc") = some ⟨"", none⟩ := by
  decide

/-- C5, as the code has it.  `ReserveCode` is create-if-absent for the ttls
the backend accepts.  For every store state and code: a ttl of zero or more is
never refused, and whenever the call reports no error it returns created=true
if and only if the key of the code did not exist before the call.  When it
returns true the key was absent and now exists with the empty value, and for a
ttl of zero or more with the given ttl (no expiry for zero, otherwise the ttl
in whole milliseconds, at least one), and no other key has changed.  When it
returns false, by a collision or by a refusal, the whole store, so the value
and TTL of an existing key, is unchanged; a code that is present is thus never
handed out again.  A ttl below -1ns is refused: the call returns created=false
with the error, whether the key exists or not. -/
theorem C5_reserve_create_if_absent (db : DB) (c : String) (ttl : Int) :
    (0 ≤ ttl → (ReserveCode db c ttl).2.2 = none) ∧
    ((ReserveCode db c ttl).2.2 = none →
      ((ReserveCode db c ttl).2.1 = true ↔ db (key c) = none)) ∧
    ((ReserveCode db c ttl).2.1 = true →
      db (key c) = none ∧
      (∃ life, (ReserveCode db c ttl).1 (key c) = some ⟨"", life⟩ ∧
        (0 ≤ ttl →
          life = if ttl = 0 then none else some (max 1 (ttl / 1000000)).toNat)) ∧
      ∀ k, k ≠ key c → (ReserveCode db c ttl).1 k = db k) ∧
    ((ReserveCode db c ttl).2.1 = false → (ReserveCode db c ttl).1 = db) ∧
    (ttl < -1 → ReserveCode db c ttl = (db, false, some Error.invalidExpire)) := by
  rw [← and_assoc, ← and_assoc, ← and_assoc]
  refine ⟨?_, fun h => reserve_refused db c h⟩
  rw [and_assoc, and_assoc]
  cases hpre : db (key c) with
  | some e =>
    have hp := reserve_present ttl hpre
    refine ⟨fun h => by rw [reserve_present_ok hpre h], fun _ => ?_, fun h => ?_,
      fun _ => hp.1⟩
    · simp [hp.2]
    · rw [hp.2] at h; cases h
  | none =>
    refine ⟨fun h => by rw [reserve_absent hpre h], fun herr => ?_, fun h => ?_, fun h => ?_⟩
    · rcases reserve_absent_cases ttl hpre with hc | ⟨life, hc⟩
      · rw [hc] at herr; cases herr
      · rw [hc]; simp
    · refine ⟨rfl, ?_, fun k hk => reserve_frame db c ttl hk⟩
      rcases reserve_absent_cases ttl hpre with hc | ⟨life, hc⟩
      · rw [hc] at h; cases h
      · refine ⟨life, by rw [hc]; exact put_same _ _ _, fun h0 => ?_⟩
        have h2 := reserve_absent hpre h0
        rw [hc] at h2
        have h3 := congrFun (congrArg Prod.fst h2) (key c)
        simp only [put_same, Option.some.injEq, Entry.mk.injEq, true_and] at h3
        exact h3
    · rcases reserve_absent_cases ttl hpre with hc | ⟨life, hc⟩
      · rw [hc]
      · rw [hc] at h; cases h

theorem C5_reserve_create_if_absent_witness :
    (ReserveCode DB.empty "abc" time.Minute).2 = (true, none) ∧
    (ReserveCode DB.empty "abc" time.Minute).1 (key "abc") = some ⟨"", some 60000⟩ ∧
    (ReserveCode (ReserveCode DB.empty "abc" time.Minute).1 "abc" time.Hour).2
      = (false, none) ∧
    (ReserveCode (ReserveCode DB.empty "abc" time.Minute).1 "abc" time.Hour).1
      = (ReserveCode DB.empty "abc" time.Minute).1 :=
  ⟨by decide, by decide, by decide,
    (C5_reserve_create_if_absent (ReserveCode DB.empty "abc" time.Minute).1 "abc"
      time.Hour).2.2.2.1 (by decide)⟩

end redisstore

/-! # Properties of the server -/

namespace server

open storage http

variable {σ : Type}

theorem read_all_some {body b : String} {max : Int}
    (h : readAllMaxBytes body max = some b) : b = body := by
  unfold readAllMaxBytes at h
  split_ifs at h
  exact (Option.some.inj h).symm

theorem read_all_within {body : String} {max : Int}
    (h : (body.utf8ByteSize : Int) ≤ max) : readAllMaxBytes body max = some body := by
  unfold readAllMaxBytes
  rw [if_neg (not_lt.mpr h)]

theorem status_write_header {x : Exchange σ} (h : x.w.code = none) (n : Nat) :
    (x.WriteHeader n).w.status = n := by
  simp [Exchange.WriteHeader, ResponseWriter.WriteHeader, ResponseWriter.status, h]

theorem write_header_calls (x : Exchange σ) (n : Nat) : (x.WriteHeader n).calls = x.calls :=
  rfl

theorem write_header_st (x : Exchange σ) (n : Nat) : (x.WriteHeader n).st = x.st := rfl

theorem sec_headers_code (s : Server σ) (x : Exchange σ) :
    (s.secHeaders x).w.code = x.w.code := rfl

theorem sec_headers_st (s : Server σ) (x : Exchange σ) : (s.secHeaders x).st = x.st := rfl

theorem sec_headers_calls (s : Server σ) (x : Exchange σ) :
    (s.secHeaders x).calls = x.calls := rfl

theorem log_line_w (s : Server σ) (x : Exchange σ) (a b c : String) :
    (s.logLine x a b c).w = x.w := by
  unfold Server.logLine; split_ifs <;> rfl

theorem log_line_st (s : Server σ) (x : Exchange σ) (a b c : String) :
    (s.logLine x a b c).st = x.st := by
  unfold Server.logLine; split_ifs <;> rfl

theorem log_line_calls (s : Server σ) (x : Exchange σ) (a b c : String) :
    (s.logLine x a b c).calls = x.calls := by
  unfold Server.logLine; split_ifs <;> rfl

/-- A refusal: a log line and status 400, nothing else. -/
theorem refuse_spec (s : Server σ) (x : Exchange σ) (hw : x.w.code = none) (a b c : String) :
    ((s.logLine (s.secHeaders x) a b c).WriteHeader StatusBadRequest).w.status
        = StatusBadRequest ∧
    ((s.logLine (s.secHeaders x) a b c).WriteHeader StatusBadRequest).calls = x.calls ∧
    ((s.logLine (s.secHeaders x) a b c).WriteHeader StatusBadRequest).st = x.st := by
  refine ⟨status_write_header ?_ _, ?_, ?_⟩
  · rw [log_line_w, sec_headers_code, hw]
  · rw [write_header_calls, log_line_calls, sec_headers_calls]
  · rw [write_header_st, log_line_st, sec_headers_st]

theorem decode_empty : base64.DecodeString "" = some [] := by decide

/-- C6. PUT validation happens before the store is touched: for every
server, request and code, if the body after trimming surrounding white space
is empty, is not valid standard base64, or decodes to fewer than 13 bytes,
then `putMessage` responds HTTP 400, makes no call to the store (the list of
store calls is as it was before the handler ran, so `AttachCipher` is never
invoked) and leaves the state of the store untouched. -/
theorem C6_put_validation_before_store (s : Server σ) (x : Exchange σ) (r : Request)
    (hw : x.w.code = none)
    (hbad : strings.TrimSpace r.Body = "" ∨
      base64.DecodeString (strings.TrimSpace r.Body) = none ∨
      ∃ buf, base64.DecodeString (strings.TrimSpace r.Body) = some buf ∧ buf.length < 13) :
    (s.putMessage x r).w.status = StatusBadRequest ∧
    (s.putMessage x r).calls = x.calls ∧
    (s.putMessage x r).st = x.st := by
  cases hr : readAllMaxBytes r.Body
      (if s.cfg.MaxBodyBytes ≤ 0 then 1048576 else s.cfg.MaxBodyBytes) with
  | none =>
    simp only [Server.putMessage, hr]
    exact refuse_spec s x hw _ _ _
  | some body =>
    have hb := read_all_some hr
    subst hb
    by_cases he : strings.TrimSpace r.Body = ""
    · simp only [Server.putMessage, hr, he, if_true]
      exact refuse_spec s x hw _ _ _
    · rcases hbad with h | h | ⟨buf, h, hlen⟩
      · exact absurd h he
      · simp only [Server.putMessage, hr, he, if_false, h]
        exact refuse_spec s x hw _ _ _
      · simp only [Server.putMessage, hr, he, if_false, h, hlen, if_true]
        exact refuse_spec s x hw _ _ _

end server

namespace server

open storage http

variable {σ : Type}

/-- The path of `putMessage` for a body that passes every check: exactly one
call of `AttachCipher`, with the trimmed body, and a status taken from its
result. -/
theorem put_message_accepted (s : Server σ) (x : Exchange σ) (r : Request)
    (buf : List Nat) (hw : x.w.code = none)
    (hsz : (r.Body.utf8ByteSize : Int)
      ≤ (if s.cfg.MaxBodyBytes ≤ 0 then 1048576 else s.cfg.MaxBodyBytes))
    (hdec : base64.DecodeString (strings.TrimSpace r.Body) = some buf)
    (hlen : 13 ≤ buf.length) :
    (s.putMessage x r).calls
      = x.calls ++ [Call.AttachCipher (strings.TrimPrefix r.Path "/message/")
          (strings.TrimSpace r.Body) s.cfg.MessageTTL] ∧
    (s.putMessage x r).st
      = (s.store.AttachCipher x.st (strings.TrimPrefix r.Path "/message/")
          (strings.TrimSpace r.Body) s.cfg.MessageTTL).1 ∧
    (s.putMessage x r).w.status
      = (match (s.store.AttachCipher x.st (strings.TrimPrefix r.Path "/message/")
          (strings.TrimSpace r.Body) s.cfg.MessageTTL).2 with
        | (_, some _) => StatusInternalServerError
        | (false, none) => StatusConflict
        | (true, none) => StatusNoContent) := by
  have hne : strings.TrimSpace r.Body ≠ "" := by
    intro h
    rw [h, decode_empty] at hdec
    cases hdec
    simp at hlen
  have hl : ¬ buf.length < 13 := by omega
  have hiv : ¬ ((List.take 12 buf).length ≠ 12 ∨ (List.drop 12 buf).length = 0) := by
    simp only [List.length_take, List.length_drop]
    omega
  simp only [Server.putMessage, read_all_within hsz, hne, if_false, hdec, hl, hiv]
  rcases hr : s.store.AttachCipher (s.secHeaders x).st (strings.TrimPrefix r.Path "/message/")
      (strings.TrimSpace r.Body) s.cfg.MessageTTL with ⟨st1, ok, err⟩
  have hr1 : s.store.AttachCipher x.st (strings.TrimPrefix r.Path "/message/")
      (strings.TrimSpace r.Body) s.cfg.MessageTTL = (st1, ok, err) := hr
  rw [hr1]
  have hcode : ∀ y : Exchange σ, y.w = (s.secHeaders x).w → ∀ (a b c : String) (n : Nat),
      ((s.logLine y a b c).WriteHeader n).w.status = n := by
    intro y hy a b c n
    refine status_write_header ?_ n
    rw [log_line_w, hy]; exact hw
  cases err with
  | some e =>
    cases ok <;>
    · dsimp only
      refine ⟨?_, ?_, hcode _ (by rfl) _ _ _ _⟩
      · rw [write_header_calls, log_line_calls]; rfl
      · rw [write_header_st, log_line_st]
  | none =>
    cases ok with
    | false =>
      simp only [Bool.not_false, if_true]
      refine ⟨?_, ?_, hcode _ (by rfl) _ _ _ _⟩
      · rw [write_header_calls, log_line_calls]; rfl
      · rw [write_header_st, log_line_st]
    | true =>
      simp only [Bool.not_true, Bool.false_eq_true, if_false]
      exact ⟨rfl, rfl, status_write_header (by exact hw) _⟩

/-- C10. Status of an accepted PUT is decided only by the store outcome: for
every server, store, code and body that is read within the size limit and,
trimmed, is valid base64 decoding to at least 13 bytes, `putMessage` calls
`AttachCipher` once and responds HTTP 500 when that call returns an error,
HTTP 204 when it returns attached=true without error, and HTTP 409 when it
returns attached=false without error. -/
theorem C10_put_status_from_store (s : Server σ) (x : Exchange σ) (r : Request)
    (buf : List Nat) (hw : x.w.code = none)
    (hsz : (r.Body.utf8ByteSize : Int)
      ≤ (if s.cfg.MaxBodyBytes ≤ 0 then 1048576 else s.cfg.MaxBodyBytes))
    (hdec : base64.DecodeString (strings.TrimSpace r.Body) = some buf)
    (hlen : 13 ≤ buf.length) :
    ((s.store.AttachCipher x.st (strings.TrimPrefix r.Path "/message/")
        (strings.TrimSpace r.Body) s.cfg.MessageTTL).2.2 ≠ none →
      (s.putMessage x r).w.status = StatusInternalServerError) ∧
    ((s.store.AttachCipher x.st (strings.TrimPrefix r.Path "/message/")
        (strings.TrimSpace r.Body) s.cfg.MessageTTL).2 = (true, none) →
      (s.putMessage x r).w.status = StatusNoContent) ∧
    ((s.store.AttachCipher x.st (strings.TrimPrefix r.Path "/message/")
        (strings.TrimSpace r.Body) s.cfg.MessageTTL).2 = (false, none) →
      (s.putMessage x r).w.status = StatusConflict) := by
  have h := (put_message_accepted s x r buf hw hsz hdec hlen).2.2
  rcases hr : s.store.AttachCipher x.st (strings.TrimPrefix r.Path "/message/")
      (strings.TrimSpace r.Body) s.cfg.MessageTTL with ⟨st1, ok, err⟩
  rw [hr] at h
  refine ⟨fun he => ?_, fun he => ?_, fun he => ?_⟩
  · cases err with
    | none => exact absurd rfl he
    | some e => cases ok <;> exact h
  · cases he; exact h
  · cases he; exact h

end server

namespace server

open storage http

variable {σ : Type}

theorem C6_put_validation_before_store_witness :
    ((newTestServer mockStore.zero.storage).putMessage (Exchange.start () zeroReader)
      ⟨MethodPut, "/message/xyz", "", "c2hvcnQ="⟩).w.status = StatusBadRequest ∧
    ((newTestServer mockStore.zero.storage).putMessage (Exchange.start () zeroReader)
      ⟨MethodPut, "/message/xyz", "", "c2hvcnQ="⟩).calls = [] ∧
    ((newTestServer mockStore.zero.storage).putMessage (Exchange.start () zeroReader)
      ⟨MethodPut, "/message/xyz", "", "c2hvcnQ="⟩).st = () :=
  C6_put_validation_before_store (newTestServer mockStore.zero.storage)
    (Exchange.start () zeroReader) ⟨MethodPut, "/message/xyz", "", "c2hvcnQ="⟩ rfl
    (Or.inr (Or.inr ⟨[115, 104, 111, 114, 116], by decide, by decide⟩))

theorem C10_put_status_from_store_witness :
    ((newTestServer (mockStore.mk false true none "" false none none).storage).putMessage
      (Exchange.start () zeroReader)
      ⟨MethodPut, "/message/xyz", "", "AAAAAAAAAAAAAAAAYWJj"⟩).w.status = StatusNoContent :=
  (C10_put_status_from_store (newTestServer (mockStore.mk false true none "" false none none).storage)
    (Exchange.start () zeroReader) ⟨MethodPut, "/message/xyz", "", "AAAAAAAAAAAAAAAAYWJj"⟩
    [0, 0, 0, 0, 0, 0, 0, 0, 0, 0, 0, 0, 97, 98, 99] rfl (by decide) (by decide)
    (by decide)).2.1 (by decide)

end server

namespace server

open storage http redis

variable {σ : Type}

theorem get_set (w : ResponseWriter) (k v : String) : (w.Set k v).Get k = v := by
  have hnone : ∀ l : List (String × String), List.find? (fun _ => false) l = none := by
    intro l
    rw [List.find?_eq_none]
    intro kv _
    simp
  simp [ResponseWriter.Set, ResponseWriter.Get, List.find?_append, hnone]

/-- A found value goes out as the body, after whatever was written before,
with status 200. -/
theorem get_message_found (s : Server σ) (y : Exchange σ) (q : Request)
    (hw : y.w.code = none)
    (hg : (s.store.GetAndDelete y.st (strings.TrimPrefix q.Path "/message/")).2.2
      = (true, none)) :
    (s.getMessage y q).w.body
      = y.w.body ++ (s.store.GetAndDelete y.st (strings.TrimPrefix q.Path "/message/")).2.1 ∧
    (s.getMessage y q).w.status = StatusOK ∧
    (s.getMessage y q).w.Get "Content-Type" = "text/plain" := by
  rcases hr : s.store.GetAndDelete y.st (strings.TrimPrefix q.Path "/message/")
    with ⟨st1, v, ok, err⟩
  rw [hr] at hg
  cases hg
  simp only [Server.getMessage, hr, Bool.not_true, Bool.false_eq_true, if_false]
  refine ⟨?_, ?_, ?_⟩
  · simp [ResponseWriter.Write, ResponseWriter.WriteHeader, Exchange.Set, ResponseWriter.Set, hw]
  · simp [ResponseWriter.Write, ResponseWriter.WriteHeader, Exchange.Set, ResponseWriter.Set, hw,
      ResponseWriter.status]
  · show ((y.w.Set "Content-Type" "text/plain").Write v).Get "Content-Type" = "text/plain"
    have : ((y.w.Set "Content-Type" "text/plain").Write v).Get "Content-Type"
        = (y.w.Set "Content-Type" "text/plain").Get "Content-Type" := by
      simp [ResponseWriter.Write, ResponseWriter.WriteHeader, ResponseWriter.Set, hw,
        ResponseWriter.Get]
    rw [this, get_set]

/-- A string whose first and last characters are not white space is its own
trimmed form. -/
theorem trim_space_self (b : String)
    (hfirst : ∀ c, b.data.head? = some c → unicode.IsSpace c = false)
    (hlast : ∀ c, b.data.getLast? = some c → unicode.IsSpace c = false) :
    strings.TrimSpace b = b := by
  have h1 : b.data.dropWhile unicode.IsSpace = b.data := by
    cases hb : b.data with
    | nil => rfl
    | cons a l =>
      have := hfirst a (by rw [hb]; rfl)
      rw [List.dropWhile_cons_of_neg (by simp [this])]
  have h2 : b.data.reverse.dropWhile unicode.IsSpace = b.data.reverse := by
    cases hb : b.data.reverse with
    | nil => rfl
    | cons a l =>
      have hh : b.data.getLast? = some a := by
        rw [← List.head?_reverse, hb]; rfl
      have := hlast a hh
      rw [List.dropWhile_cons_of_neg (by simp [this])]
  unfold strings.TrimSpace
  rw [h1, h2, List.reverse_reverse]

/-- C4, the claim refuted on an instance: with the Redis store, a PUT of a
valid body to a code that does not exist is answered 409 and not 400, and
`AttachCipher` returns for the absent code exactly what it returns for a
populated one. -/
theorem C4_attach_absent_counterexample :
    ((newTestServer redisstore.Store).putMessage (Exchange.start DB.empty zeroReader)
      ⟨MethodPut, "/message/xyz", "", "AAAAAAAAAAAAAAAAYWJj"⟩).w.status = StatusConflict ∧
    ((newTestServer redisstore.Store).putMessage (Exchange.start DB.empty zeroReader)
      ⟨MethodPut, "/message/xyz", "", "AAAAAAAAAAAAAAAAYWJj"⟩).w.status ≠ StatusBadRequest ∧
    (redisstore.AttachCipher DB.empty "xyz" "AAAAAAAAAAAAAAAAYWJj" time.Hour).2
      = (redisstore.AttachCipher (DB.empty.put (redisstore.key "xyz") ⟨"data", some 5⟩) "xyz"
          "AAAAAAAAAAAAAAAAYWJj" time.Hour).2 := by
  decide

/-- C4, as the code has it.  With the Redis store, for every store state and
every valid PUT body: when the code does not exist the script returns -1,
and when the code is populated the script returns 0, but in both cases
`AttachCipher` returns attached=false without error and leaves the store
unchanged, and `putMessage` responds HTTP 409.  Not-found and conflict are
told apart inside the script only, not in the result of `AttachCipher` and
not in the response status. -/
theorem C4_attach_absent_same_as_conflict (cfg : Config) (lg : Bool) (tok : Option Chan)
    (x : Exchange DB) (r : Request) (buf : List Nat) (hw : x.w.code = none)
    (hsz : (r.Body.utf8ByteSize : Int)
      ≤ (if cfg.MaxBodyBytes ≤ 0 then 1048576 else cfg.MaxBodyBytes))
    (hdec : base64.DecodeString (strings.TrimSpace r.Body) = some buf)
    (hlen : 13 ≤ buf.length) :
    (x.st (redisstore.key (strings.TrimPrefix r.Path "/message/")) = none →
      (redisstore.script x.st (redisstore.key (strings.TrimPrefix r.Path "/message/"))
        (strings.TrimSpace r.Body) (Int.tdiv cfg.MessageTTL time.Second)).2 = .ok (-1) ∧
      redisstore.AttachCipher x.st (strings.TrimPrefix r.Path "/message/")
        (strings.TrimSpace r.Body) cfg.MessageTTL = (x.st, false, none) ∧
      ((⟨cfg, redisstore.Store, lg, tok⟩ : Server DB).putMessage x r).w.status
        = StatusConflict) ∧
    (∀ (v : String) (t : Option Nat),
      x.st (redisstore.key (strings.TrimPrefix r.Path "/message/")) = some ⟨v, t⟩ → v ≠ "" →
      (redisstore.script x.st (redisstore.key (strings.TrimPrefix r.Path "/message/"))
        (strings.TrimSpace r.Body) (Int.tdiv cfg.MessageTTL time.Second)).2 = .ok 0 ∧
      redisstore.AttachCipher x.st (strings.TrimPrefix r.Path "/message/")
        (strings.TrimSpace r.Body) cfg.MessageTTL = (x.st, false, none) ∧
      ((⟨cfg, redisstore.Store, lg, tok⟩ : Server DB).putMessage x r).w.status
        = StatusConflict) := by
  have h := (put_message_accepted (⟨cfg, redisstore.Store, lg, tok⟩ : Server DB) x r buf hw
    hsz hdec hlen).2.2
  have hst : ∀ (a : DB) (c b : String) (ttl : Int),
      (⟨cfg, redisstore.Store, lg, tok⟩ : Server DB).store.AttachCipher a c b ttl
        = redisstore.AttachCipher a c b ttl := fun _ _ _ _ => rfl
  rw [hst] at h
  refine ⟨fun habs => ⟨?_, redisstore.attach_absent _ _ habs, ?_⟩,
    fun v t hpop hv => ⟨?_, redisstore.attach_populated _ _ hpop hv, ?_⟩⟩
  · simp [redisstore.script, GET, habs]
  · rw [h, redisstore.attach_absent _ _ habs]
  · simp [redisstore.script, GET, hpop, hv]
  · rw [h, redisstore.attach_populated _ _ hpop hv]

theorem C4_attach_absent_same_as_conflict_witness :
    (redisstore.script DB.empty (redisstore.key "xyz") "AAAAAAAAAAAAAAAAYWJj"
        (Int.tdiv time.Hour time.Second)).2 = .ok (-1) ∧
      redisstore.AttachCipher DB.empty "xyz" "AAAAAAAAAAAAAAAAYWJj" time.Hour
        = (DB.empty, false, none) ∧
      ((⟨testConfig, redisstore.Store, true, none⟩ : Server DB).putMessage
        (Exchange.start DB.empty zeroReader)
        ⟨MethodPut, "/message/xyz", "", "AAAAAAAAAAAAAAAAYWJj"⟩).w.status = StatusConflict :=
  (C4_attach_absent_same_as_conflict testConfig true none (Exchange.start DB.empty zeroReader)
    ⟨MethodPut, "/message/xyz", "", "AAAAAAAAAAAAAAAAYWJj"⟩
    [0, 0, 0, 0, 0, 0, 0, 0, 0, 0, 0, 0, 97, 98, 99] rfl (by decide) (by decide)
    (by decide)).1 rfl

end server

namespace server

open storage http redis

variable {σ : Type}

/-- C9, the claim refuted on an instance: a valid body sent with a trailing
line feed is accepted (204), but the value handed to `AttachCipher` is the
body without the line feed, which is not the body that was sent, and the GET
that follows returns that shorter value. -/
theorem C9_blob_unmodified_counterexample :
    ((newTestServer redisstore.Store).putMessage
      (Exchange.start (DB.empty.put (redisstore.key "xyz") ⟨"", some 60000⟩) zeroReader)
      ⟨MethodPut, "/message/xyz", "", "AAAAAAAAAAAAAAAAYWJj\n"⟩).w.status = StatusNoContent ∧
    ((newTestServer redisstore.Store).putMessage
      (Exchange.start (DB.empty.put (redisstore.key "xyz") ⟨"", some 60000⟩) zeroReader)
      ⟨MethodPut, "/message/xyz", "", "AAAAAAAAAAAAAAAAYWJj\n"⟩).calls
      = [Call.AttachCipher "xyz" "AAAAAAAAAAAAAAAAYWJj" time.Hour] ∧
    ((newTestServer redisstore.Store).getMessage
      (Exchange.start ((newTestServer redisstore.Store).putMessage
        (Exchange.start (DB.empty.put (redisstore.key "xyz") ⟨"", some 60000⟩) zeroReader)
        ⟨MethodPut, "/message/xyz", "", "AAAAAAAAAAAAAAAAYWJj\n"⟩).st zeroReader)
      ⟨MethodGet, "/message/xyz", "", ""⟩).w.body = "AAAAAAAAAAAAAAAAYWJj" ∧
    "AAAAAAAAAAAAAAAAYWJj" ≠ "AAAAAAAAAAAAAAAAYWJj\n" := by
  decide

/-- C9, as the code has it.  For every PUT request body that is accepted by
validation, the value `putMessage` hands to the store is the request body
with its leading and trailing white space removed: this is the request body
itself, byte for byte, when the body neither starts nor ends with white
space.  `getMessage` writes the value returned by `GetAndDelete` as the
response body without any change.  Hence, with the Redis store, a reserved
code and a message TTL of at least one second, the PUT of an accepted body
followed by a GET of the same code returns exactly the trimmed body. -/
theorem C9_blob_trimmed_then_unmodified (s : Server σ) (x : Exchange σ) (r : Request)
    (buf : List Nat) (hw : x.w.code = none)
    (hsz : (r.Body.utf8ByteSize : Int)
      ≤ (if s.cfg.MaxBodyBytes ≤ 0 then 1048576 else s.cfg.MaxBodyBytes))
    (hdec : base64.DecodeString (strings.TrimSpace r.Body) = some buf)
    (hlen : 13 ≤ buf.length) :
    (s.putMessage x r).calls
      = x.calls ++ [Call.AttachCipher (strings.TrimPrefix r.Path "/message/")
          (strings.TrimSpace r.Body) s.cfg.MessageTTL] ∧
    ((∀ c, r.Body.data.head? = some c → unicode.IsSpace c = false) →
      (∀ c, r.Body.data.getLast? = some c → unicode.IsSpace c = false) →
      strings.TrimSpace r.Body = r.Body) ∧
    (∀ (y : Exchange σ) (q : Request), y.w.code = none →
      (s.store.GetAndDelete y.st (strings.TrimPrefix q.Path "/message/")).2.2 = (true, none) →
      (s.getMessage y q).w.body
        = y.w.body ++ (s.store.GetAndDelete y.st (strings.TrimPrefix q.Path "/message/")).2.1) ∧
    (∀ (db : DB) (t : Option Nat) (lg : Bool) (tok : Option Chan) (rd1 rd2 : rand.Reader),
      db (redisstore.key (strings.TrimPrefix r.Path "/message/")) = some ⟨"", t⟩ →
      time.Second ≤ s.cfg.MessageTTL →
      ((⟨s.cfg, redisstore.Store, lg, tok⟩ : Server DB).putMessage
        (Exchange.start db rd1) r).w.status = StatusNoContent ∧
      ((⟨s.cfg, redisstore.Store, lg, tok⟩ : Server DB).getMessage
        (Exchange.start ((⟨s.cfg, redisstore.Store, lg, tok⟩ : Server DB).putMessage
          (Exchange.start db rd1) r).st rd2)
        ⟨MethodGet, r.Path, "", ""⟩).w.status = StatusOK ∧
      ((⟨s.cfg, redisstore.Store, lg, tok⟩ : Server DB).getMessage
        (Exchange.start ((⟨s.cfg, redisstore.Store, lg, tok⟩ : Server DB).putMessage
          (Exchange.start db rd1) r).st rd2)
        ⟨MethodGet, r.Path, "", ""⟩).w.body = strings.TrimSpace r.Body) := by
  have hne : strings.TrimSpace r.Body ≠ "" := by
    intro h
    rw [h, decode_empty] at hdec
    cases hdec
    simp at hlen
  refine ⟨(put_message_accepted s x r buf hw hsz hdec hlen).1,
    trim_space_self r.Body,
    fun y q hy hg => (get_message_found s y q hy hg).1, ?_⟩
  intro db t lg tok rd1 rd2 hres httl
  have hp := put_message_accepted (⟨s.cfg, redisstore.Store, lg, tok⟩ : Server DB)
    (Exchange.start db rd1) r buf rfl hsz hdec hlen
  have hst : ∀ (a : DB) (c b : String) (ttl : Int),
      (⟨s.cfg, redisstore.Store, lg, tok⟩ : Server DB).store.AttachCipher a c b ttl
        = redisstore.AttachCipher a c b ttl := fun _ _ _ _ => rfl
  have hgd : ∀ (a : DB) (c : String),
      (⟨s.cfg, redisstore.Store, lg, tok⟩ : Server DB).store.GetAndDelete a c
        = redisstore.GetAndDelete a c := fun _ _ => rfl
  have hatt := redisstore.attach_reserved (strings.TrimSpace r.Body) hres httl
  have h1 := hp.2.1
  have h2 := hp.2.2
  rw [hst] at h1 h2
  have hdb : (Exchange.start db rd1).st = db := rfl
  rw [hdb] at h1 h2
  have hcfg : (⟨s.cfg, redisstore.Store, lg, tok⟩ : Server DB).cfg.MessageTTL
      = s.cfg.MessageTTL := rfl
  rw [hcfg, hatt] at h1 h2
  have h1b : ((⟨s.cfg, redisstore.Store, lg, tok⟩ : Server DB).putMessage
      (Exchange.start db rd1) r).st
      = db.put (redisstore.key (strings.TrimPrefix r.Path "/message/"))
          ⟨strings.TrimSpace r.Body, some (s.cfg.MessageTTL / 1000000000 * 1000).toNat⟩ := h1
  have hget := redisstore.getdel_populated
    (redisstore.put_same db (redisstore.key (strings.TrimPrefix r.Path "/message/"))
      ⟨strings.TrimSpace r.Body, some (s.cfg.MessageTTL / 1000000000 * 1000).toNat⟩) hne
  rw [h1b]
  have hf := get_message_found (⟨s.cfg, redisstore.Store, lg, tok⟩ : Server DB)
    (Exchange.start (db.put (redisstore.key (strings.TrimPrefix r.Path "/message/"))
      ⟨strings.TrimSpace r.Body, some (s.cfg.MessageTTL / 1000000000 * 1000).toNat⟩) rd2)
    ⟨MethodGet, r.Path, "", ""⟩ rfl (by rw [hgd]; exact congrArg (fun p => p.2.2) hget)
  have hv : "" ++ (redisstore.GetAndDelete
      (db.put (redisstore.key (strings.TrimPrefix r.Path "/message/"))
        ⟨strings.TrimSpace r.Body, some (s.cfg.MessageTTL / 1000000000 * 1000).toNat⟩)
      (strings.TrimPrefix r.Path "/message/")).2.1 = strings.TrimSpace r.Body := by
    rw [hget]
    simp
  exact ⟨h2, hf.2.1, hf.1.trans hv⟩

theorem C9_blob_trimmed_then_unmodified_witness :
    ((newTestServer redisstore.Store).putMessage
      (Exchange.start (DB.empty.put (redisstore.key "xyz") ⟨"", some 60000⟩) zeroReader)
      ⟨MethodPut, "/message/xyz", "", "  AAAAAAAAAAAAAAAAYWJj\n"⟩).calls
      = [] ++ [Call.AttachCipher "xyz" "AAAAAAAAAAAAAAAAYWJj" time.Hour] :=
  (C9_blob_trimmed_then_unmodified (newTestServer redisstore.Store)
    (Exchange.start (DB.empty.put (redisstore.key "xyz") ⟨"", some 60000⟩) zeroReader)
    ⟨MethodPut, "/message/xyz", "", "  AAAAAAAAAAAAAAAAYWJj\n"⟩
    [0, 0, 0, 0, 0, 0, 0, 0, 0, 0, 0, 0, 97, 98, 99] rfl (by decide) (by decide)
    (by decide)).1

end server

namespace server

open storage http

variable {σ : Type}

theorem generate_code_loop_spec (k : Nat) :
    ∀ (rd : rand.Reader) (acc : List Char),
      ∃ new, (generateCodeLoop k rd acc).1 = acc ++ new ∧ new.length = k ∧
        ∀ ch ∈ new, ch ∈ letters.data := by
  induction k with
  | zero =>
    intro rd acc
    exact ⟨[], by simp [generateCodeLoop], rfl, by simp⟩
  | succ k ih =>
    intro rd acc
    obtain ⟨new, h1, h2, h3⟩ := ih (rd.Int letters.data.length (by decide)).2
      (acc ++ [letters.data.get (rd.Int letters.data.length (by decide)).1])
    refine ⟨letters.data.get (rd.Int letters.data.length (by decide)).1 :: new, ?_, ?_, ?_⟩
    · simp only [generateCodeLoop, h1, List.append_assoc, List.singleton_append]
    · simp [h2]
    · intro ch hch
      rcases List.mem_cons.mp hch with h | h
      · rw [h]; exact List.get_mem _ _ _
      · exact h3 ch h

theorem letters_unambiguous :
    ∀ ch ∈ letters.data, ch ∉ ['0', 'O', '1', 'l', 'I'] := by
  decide

theorem generate_code_spec (s : Server σ) (rd : rand.Reader) (n : Int) :
    (s.generateCode rd n).1.length = n.toNat ∧
    ∀ ch ∈ (s.generateCode rd n).1.data,
      ch ∈ letters.data ∧ ch ∉ ['0', 'O', '1', 'l', 'I'] := by
  obtain ⟨new, h1, h2, h3⟩ := generate_code_loop_spec n.toNat rd []
  have hd : (s.generateCode rd n).1.data = new := by
    show (generateCodeLoop n.toNat rd []).1 = new
    rw [h1]; rfl
  refine ⟨?_, ?_⟩
  · show (s.generateCode rd n).1.data.length = n.toNat
    rw [hd, h2]
  · intro ch hch
    rw [hd] at hch
    exact ⟨h3 ch hch, letters_unambiguous ch (h3 ch hch)⟩

theorem post_code_loop_spec (s : Server σ) (fuel : Nat) :
    ∀ (x : Exchange σ) (res : Exchange σ × Option String),
      s.postCodeLoop fuel x = some res →
      (∀ code, res.2 = some code →
        res.1.w = x.w ∧ ∃ rd, code = (s.generateCode rd 8).1) ∧
      (res.2 = none → res.1.w = x.w.WriteHeader StatusInternalServerError) := by
  induction fuel with
  | zero =>
    intro x res h
    simp [Server.postCodeLoop] at h
  | succ fuel ih =>
    intro x res h
    rcases hr : s.store.ReserveCode x.st (s.generateCode x.rd 8).1 s.cfg.PlaceholderTTL
      with ⟨st1, ok, err⟩
    simp only [Server.postCodeLoop, hr] at h
    cases err with
    | some e =>
      simp only [Option.some.injEq] at h
      subst h
      refine ⟨fun code hc => (by cases hc), fun _ => ?_⟩
      show (s.logLine _ _ _ _).w.WriteHeader _ = _
      rw [log_line_w]
    | none =>
      cases ok with
      | true =>
        simp only [if_true, Option.some.injEq] at h
        subst h
        exact ⟨fun code hc => ⟨rfl, x.rd, (Option.some.inj hc).symm⟩, fun hc => (by cases hc)⟩
      | false =>
        simp only [Bool.false_eq_true, if_false] at h
        have h2 := ih _ res h
        exact h2

/-- When the first reservation succeeds, `postCode` answers 201 with the
code it generated. -/
theorem post_code_created (s : Server σ) (fuel : Nat) (x : Exchange σ) (r : Request)
    (hx : x.w = ResponseWriter.new) (hm : r.Method = MethodPost)
    (hr : (s.store.ReserveCode x.st (s.generateCode x.rd 8).1 s.cfg.PlaceholderTTL).2
      = (true, none)) :
    ∃ y, s.postCode (fuel + 1) x r = some y ∧ y.w.status = StatusCreated ∧
      y.w.body = jsonObject [("code", (s.generateCode x.rd 8).1)] := by
  rcases hres : s.store.ReserveCode x.st (s.generateCode x.rd 8).1 s.cfg.PlaceholderTTL
    with ⟨st1, ok, err⟩
  rw [hres] at hr
  cases hr
  have hloop : s.postCodeLoop (fuel + 1) x
      = some ({ x with rd := (s.generateCode x.rd 8).2, st := st1,
                       calls := x.calls ++ [Call.ReserveCode (s.generateCode x.rd 8).1
                         s.cfg.PlaceholderTTL] }, some (s.generateCode x.rd 8).1) := by
    simp only [Server.postCodeLoop, hres, if_true]
  simp only [Server.postCode, hm, ne_eq, not_true_eq_false, if_false, hloop]
  refine ⟨_, rfl, ?_, ?_⟩
  · simp [Exchange.Set, Exchange.WriteHeader, ResponseWriter.Write,
      ResponseWriter.WriteHeader, ResponseWriter.Set, hx, ResponseWriter.new,
      ResponseWriter.status]
  · simp [Exchange.Set, Exchange.WriteHeader, ResponseWriter.Write,
      ResponseWriter.WriteHeader, ResponseWriter.Set, hx, ResponseWriter.new]

/-- C7. Generated codes have the fixed length and the restricted alphabet:
for every length `n` and every entropy source, `generateCode(n)` returns a
string of exactly `n` characters (none for a negative `n`), each one a
member of the alphabet constant and none of them one of the confusable
characters `0`, `O`, `1`, `l`, `I`; and whenever `postCode` answers 201 the
code in the JSON body and in the `Location` header is a result of
`generateCode(8)`, so it has exactly 8 such characters.  Such an answer is
given as soon as a reservation succeeds: when the first `ReserveCode` returns
created=true, `postCode` answers 201 with the code it has just generated. -/
theorem C7_generated_code_alphabet (s : Server σ) :
    (∀ (rd : rand.Reader) (n : Int),
      (s.generateCode rd n).1.length = n.toNat ∧
      ∀ ch ∈ (s.generateCode rd n).1.data,
        ch ∈ letters.data ∧ ch ∉ ['0', 'O', '1', 'l', 'I']) ∧
    (∀ (fuel : Nat) (x y : Exchange σ) (r : Request),
      x.w = ResponseWriter.new → s.postCode fuel x r = some y →
      y.w.status = StatusCreated →
      ∃ rd code, code = (s.generateCode rd 8).1 ∧
        y.w.body = jsonObject [("code", code)] ∧
        y.w.Get "Location" = "/message/" ++ code ∧
        code.length = 8 ∧
        ∀ ch ∈ code.data, ch ∈ letters.data ∧ ch ∉ ['0', 'O', '1', 'l', 'I']) ∧
    (∀ (fuel : Nat) (x : Exchange σ) (r : Request),
      x.w = ResponseWriter.new → r.Method = MethodPost →
      (s.store.ReserveCode x.st (s.generateCode x.rd 8).1 s.cfg.PlaceholderTTL).2
        = (true, none) →
      ∃ y, s.postCode (fuel + 1) x r = some y ∧ y.w.status = StatusCreated ∧
        y.w.body = jsonObject [("code", (s.generateCode x.rd 8).1)]) := by
  refine ⟨fun rd n => generate_code_spec s rd n, ?_,
    fun fuel x r hx hm hr => post_code_created s fuel x r hx hm hr⟩
  intro fuel x y r hx hpost hstatus
  unfold Server.postCode at hpost
  by_cases hm : r.Method ≠ MethodPost
  · rw [if_pos hm] at hpost
    cases hpost
    rw [status_write_header (by rw [hx]; rfl)] at hstatus
    exact absurd hstatus (by decide)
  · rw [if_neg hm] at hpost
    cases hl : s.postCodeLoop fuel x with
    | none => rw [hl] at hpost; cases hpost
    | some res =>
      obtain ⟨x2, oc⟩ := res
      have hspec := post_code_loop_spec s fuel x (x2, oc) hl
      rw [hl] at hpost
      cases oc with
      | none =>
        simp only [Option.some.injEq] at hpost
        subst hpost
        have hw := hspec.2 rfl
        simp only [] at hw
        rw [ResponseWriter.status, hw, hx] at hstatus
        exact absurd hstatus (by decide)
      | some code =>
        simp only [Option.some.injEq] at hpost
        obtain ⟨hw, rd, hcode⟩ := hspec.1 code rfl
        simp only [] at hw
        have hg := generate_code_spec s rd 8
        rw [← hcode] at hg
        refine ⟨rd, code, hcode, ?_, ?_, hg.1, hg.2⟩
        · rw [← hpost]
          simp [Exchange.Set, Exchange.WriteHeader, ResponseWriter.Write,
            ResponseWriter.WriteHeader, ResponseWriter.Set, hw, hx, ResponseWriter.new]
        · rw [← hpost]
          show (((((x2.w.Set "Content-Type" "application/json").Set "Location"
            ("/message/" ++ code)).WriteHeader StatusCreated)).Write _).Get "Location" = _
          have : ∀ (w : ResponseWriter) (n : Nat) (b : String) (k : String),
              ((w.WriteHeader n).Write b).Get k = w.Get k := by
            intro w n b k
            cases hc : w.code <;>
              simp [ResponseWriter.Write, ResponseWriter.WriteHeader, ResponseWriter.Get, hc]
          rw [this, get_set]

theorem C7_generated_code_alphabet_witness :
    ∃ rd code, code = ((newTestServer (mockStore.mk true false none "" false none
        none).storage).generateCode rd 8).1 ∧
      "\x7b\"code\":\"AAAAAAAA\"\x7d\n" = jsonObject [("code", code)] ∧
      "/message/AAAAAAAA" = "/message/" ++ code ∧
      code.length = 8 ∧
      ∀ ch ∈ code.data, ch ∈ letters.data ∧ ch ∉ ['0', 'O', '1', 'l', 'I'] :=
  (C7_generated_code_alphabet
    (newTestServer (mockStore.mk true false none "" false none none).storage)).2.1 1
    (Exchange.start () zeroReader)
    ⟨⟨[("Content-Type", "application/json"), ("Location", "/message/AAAAAAAA")],
      some StatusCreated, "\x7b\"code\":\"AAAAAAAA\"\x7d\n"⟩, (),
      [Call.ReserveCode "AAAAAAAA" time.Minute], [], ⟨fun _ => 0, 8⟩⟩
    ⟨MethodPost, "/code", "", ""⟩ rfl rfl (by decide)

end server

namespace server

open storage http

variable {σ : Type}

/-- From a bucket holding `len` tokens, `len` attempts succeed and the next
one is rejected. -/
theorem allow_times_bucket (len : Nat) :
    ∀ (s : Server σ) (cap : Nat), s.tokens = some ⟨cap, len⟩ →
      (s.allowTimes (len + 1)).1 = List.replicate len true ++ [false] := by
  induction len with
  | zero =>
    intro s cap h
    simp [Server.allowTimes, Server.allow, h]
  | succ len ih =>
    intro s cap h
    have ha : s.allow = (true, { s with tokens := some ⟨cap, len⟩ }) := by
      simp [Server.allow, h]
    rw [Server.allowTimes, ha]
    simp only [List.replicate_succ, List.cons_append]
    rw [ih _ cap rfl]

/-- Ticks fill the bucket one token at a time and stop at its capacity. -/
theorem refill_times_bucket (n : Nat) :
    ∀ (s : Server σ) (cap len : Nat), s.tokens = some ⟨cap, len⟩ → len ≤ cap →
      (s.refillTimes n).tokens = some ⟨cap, min (len + n) cap⟩ := by
  induction n with
  | zero =>
    intro s cap len h hle
    simp [Server.refillTimes, h, hle]
  | succ n ih =>
    intro s cap len h hle
    rw [Server.refillTimes]
    by_cases hl : len < cap
    · have hr : s.refill.tokens = some ⟨cap, len + 1⟩ := by
        simp [Server.refill, h, hl]
      rw [ih _ cap (len + 1) hr hl]
      congr 2
      omega
    · have hr : s.refill.tokens = some ⟨cap, len⟩ := by
        simp [Server.refill, h, hl]
      rw [ih _ cap len hr hle]
      congr 2
      omega

theorem cors_headers_frame (s : Server σ) (x : Exchange σ) (r : Request) :
    (s.corsHeaders x r).w.code = x.w.code ∧ (s.corsHeaders x r).calls = x.calls ∧
      (s.corsHeaders x r).st = x.st := by
  unfold Server.corsHeaders
  dsimp only
  split_ifs <;> exact ⟨rfl, rfl, rfl⟩

/-- A request other than OPTIONS that finds no token is answered 429 and
reaches no route. -/
theorem handler_rejects (s : Server σ) (fuel : Nat) (x : Exchange σ) (r : Request)
    (hw : x.w.code = none) (hm : r.Method ≠ MethodOptions) (ha : s.allow.1 = false) :
    ∃ y, s.Handler fuel x r = some (y, s.allow.2) ∧
      y.w.status = StatusTooManyRequests ∧ y.calls = x.calls ∧ y.st = x.st := by
  refine ⟨(({ s.corsHeaders (s.secHeaders x) r with
      rd := (s.requestID (s.corsHeaders (s.secHeaders x) r).rd).2 } : Exchange σ).Set
      "X-Request-Id" (s.requestID (s.corsHeaders (s.secHeaders x) r).rd).1).WriteHeader
      StatusTooManyRequests, ?_, ?_, ?_, ?_⟩
  · simp only [Server.Handler, hm, if_false, ha, Bool.not_false, if_true]
  · refine status_write_header ?_ _
    show (s.corsHeaders (s.secHeaders x) r).w.code = none
    rw [(cors_headers_frame s _ r).1]
    exact hw
  · exact (cors_headers_frame s (s.secHeaders x) r).2.1
  · exact (cors_headers_frame s (s.secHeaders x) r).2.2

/-- C8, the claim refuted on an instance: on the server `New` builds for
rate 1 and burst 1, two admission attempts made before any refill tick are
both rejected, the first one included. -/
theorem C8_token_bucket_counterexample :
    (New { Config.zero with RateLimitRPS := 1, RateBurst := 1 }
        (mockStore.mk true false none "" false none none).storage true).map
      (fun s => (s.allowTimes 2).1) = some [false, false] ∧
    (New { Config.zero with RateLimitRPS := 1, RateBurst := 1 }
        (mockStore.mk true false none "" false none none).storage true).map
      (fun s => (s.allowTimes 2).1) ≠ some [true, false] := by
  decide

/-- C8, as the code has it.  For every rate `R > 0` and burst `B > 0`, `New`
(which succeeds for every rate up to 10^9) builds a server whose bucket has
capacity `B` and starts empty, so every admission attempt made before the
first refill tick is rejected.  After `n` refill ticks without admission the
bucket holds `min n B` tokens: of `min n B + 1` attempts made with no tick
in between, the first `min n B` succeed and the next one is rejected.  In
particular, once `B` ticks have filled the bucket, of `B + 1` attempts the
first `B` succeed and the `(B+1)`-th is rejected.  A rejected request other
than OPTIONS is answered HTTP 429 without reaching the store. -/
theorem C8_token_bucket_burst (cfg : Config) (st : Storage σ) (lg : Bool)
    (hR : 0 < cfg.RateLimitRPS) (hB : 0 < cfg.RateBurst) :
    (cfg.RateLimitRPS ≤ 1000000000 → (New cfg st lg).isSome = true) ∧
    ∀ s, New cfg st lg = some s →
      s.tokens = some ⟨cfg.RateBurst.toNat, 0⟩ ∧
      (∀ n, (s.allowTimes n).1 = List.replicate n false) ∧
      (∀ n, ((s.refillTimes n).allowTimes (min n cfg.RateBurst.toNat + 1)).1
        = List.replicate (min n cfg.RateBurst.toNat) true ++ [false]) ∧
      ((s.refillTimes cfg.RateBurst.toNat).allowTimes (cfg.RateBurst.toNat + 1)).1
        = List.replicate cfg.RateBurst.toNat true ++ [false] ∧
      (∀ (z : Server σ) (fuel : Nat) (x : Exchange σ) (r : Request),
        x.w.code = none → r.Method ≠ MethodOptions → z.allow.1 = false →
        ∃ y, z.Handler fuel x r = some (y, z.allow.2) ∧
          y.w.status = StatusTooManyRequests ∧ y.calls = x.calls ∧ y.st = x.st) := by
  have hnb : ¬ cfg.RateBurst ≤ 0 := by omega
  refine ⟨fun hle => ?_, fun s hs => ?_⟩
  · have hd : ¬ Int.tdiv time.Second cfg.RateLimitRPS ≤ 0 := by
      rw [Int.tdiv_eq_ediv (by decide) (le_of_lt hR)]
      have : (1 : Int) ≤ time.Second / cfg.RateLimitRPS :=
        (Int.le_ediv_iff_mul_le hR).mpr (by simpa [time.Second] using hle)
      omega
    simp [New, hR, hd]
  · have htok : s.tokens = some ⟨cfg.RateBurst.toNat, 0⟩ := by
      unfold New at hs
      rw [if_pos hR] at hs
      simp only [hnb, if_false] at hs
      split_ifs at hs
      cases hs
      rfl
    have hfresh : ∀ n, (s.allowTimes n).1 = List.replicate n false := by
      intro n
      have ha : s.allow = (false, s) := by simp [Server.allow, htok]
      induction n with
      | zero => rfl
      | succ n ih => rw [Server.allowTimes, ha]; simp only [List.replicate_succ, ih]
    have hgen : ∀ n, ((s.refillTimes n).allowTimes (min n cfg.RateBurst.toNat + 1)).1
        = List.replicate (min n cfg.RateBurst.toNat) true ++ [false] := by
      intro n
      have h := refill_times_bucket n s cfg.RateBurst.toNat 0 htok (Nat.zero_le _)
      rw [Nat.zero_add] at h
      exact allow_times_bucket _ _ _ h
    refine ⟨htok, hfresh, hgen, ?_, fun z fuel x r => handler_rejects z fuel x r⟩
    have h := hgen cfg.RateBurst.toNat
    rwa [Nat.min_self] at h

theorem C8_token_bucket_burst_witness :
    (((⟨{ Config.zero with RateLimitRPS := 5, RateBurst := 3 },
        (mockStore.mk true false none "" false none none).storage, true,
        some ⟨3, 0⟩⟩ : Server Unit).refillTimes 3).allowTimes (3 + 1)).1
      = List.replicate 3 true ++ [false] :=
  ((C8_token_bucket_burst { Config.zero with RateLimitRPS := 5, RateBurst := 3 }
    (mockStore.mk true false none "" false none none).storage true (by decide)
    (by decide)).2 _ rfl).2.2.2.1

end server

namespace redisstore

open redis

/-- C13. A read on a reserved-but-unpopulated code destroys the reservation:
when the key of code `c` exists with the empty value, `GetAndDelete(c)`
returns found=false with no error and an empty value, the key of `c` is
absent afterwards while every other key is as before, and an
`AttachCipher(c, b)` issued afterwards returns attached=false without error,
and changes nothing, for every blob `b` and every TTL. -/
theorem C13_read_destroys_reservation (db : DB) (c : String) (t : Option Nat)
    (hres : db (key c) = some ⟨"", t⟩) :
    (GetAndDelete db c).2 = ("", false, none) ∧
    (GetAndDelete db c).1 (key c) = none ∧
    (∀ k, k ≠ key c → (GetAndDelete db c).1 k = db k) ∧
    (∀ (b : String) (ttl : Int),
      AttachCipher (GetAndDelete db c).1 c b ttl = ((GetAndDelete db c).1, false, none)) := by
  rw [getdel_reserved hres]
  exact ⟨rfl, del_same _ _, fun k hk => del_other db hk,
    fun b ttl => attach_absent b ttl (del_same _ _)⟩

theorem C13_read_destroys_reservation_witness :
    (GetAndDelete (ReserveCode DB.empty "abc" time.Minute).1 "abc").2 = ("", false, none) ∧
    (GetAndDelete (ReserveCode DB.empty "abc" time.Minute).1 "abc").1 (key "abc") = none ∧
    (AttachCipher (GetAndDelete (ReserveCode DB.empty "abc" time.Minute).1 "abc").1 "abc"
      "data" time.Hour).2 = (false, none) :=
  ⟨(C13_read_destroys_reservation (ReserveCode DB.empty "abc" time.Minute).1 "abc"
      (some 60000) (by decide)).1,
    by decide, by decide⟩

end redisstore

namespace server

open storage http redis

variable {σ : Type}

/-- A store error is answered 500 and a miss 404; neither writes a body. -/
theorem get_message_not_served (s : Server σ) (x : Exchange σ) (r : Request)
    (hw : x.w.code = none) :
    ((s.store.GetAndDelete x.st (strings.TrimPrefix r.Path "/message/")).2.2.2 ≠ none →
      (s.getMessage x r).w.status = StatusInternalServerError ∧
      (s.getMessage x r).w.body = x.w.body) ∧
    ((s.store.GetAndDelete x.st (strings.TrimPrefix r.Path "/message/")).2.2 = (false, none) →
      (s.getMessage x r).w.status = StatusNotFound ∧
      (s.getMessage x r).w.body = x.w.body) := by
  rcases hr : s.store.GetAndDelete x.st (strings.TrimPrefix r.Path "/message/")
    with ⟨st1, v, ok, err⟩
  refine ⟨fun he => ?_, fun he => ?_⟩
  · cases err with
    | none => exact absurd rfl he
    | some e =>
      simp only [Server.getMessage, hr]
      refine ⟨status_write_header ?_ _, ?_⟩
      · rw [log_line_w]; exact hw
      · show ((s.logLine _ _ _ _).w.WriteHeader _).body = _
        rw [log_line_w]
        cases hc : x.w.code <;> simp [ResponseWriter.WriteHeader, hc]
  · cases he
    simp only [Server.getMessage, hr, Bool.not_false, if_true]
    refine ⟨status_write_header (by exact hw) _, ?_⟩
    show (x.w.WriteHeader _).body = _
    cases hc : x.w.code <;> simp [ResponseWriter.WriteHeader, hc]

end server

namespace server

open storage http redis

variable {σ : Type}

/-- Whatever it answers, `getMessage` leaves the store as `GetAndDelete` left
it and has made that one call. -/
theorem get_message_st (s : Server σ) (x : Exchange σ) (r : Request) :
    (s.getMessage x r).st
      = (s.store.GetAndDelete x.st (strings.TrimPrefix r.Path "/message/")).1 ∧
    (s.getMessage x r).calls
      = x.calls ++ [Call.GetAndDelete (strings.TrimPrefix r.Path "/message/")] := by
  rcases hr : s.store.GetAndDelete x.st (strings.TrimPrefix r.Path "/message/")
    with ⟨st1, v, ok, err⟩
  cases err with
  | some e =>
    simp only [Server.getMessage, hr]
    exact ⟨by rw [write_header_st, log_line_st], by rw [write_header_calls, log_line_calls]⟩
  | none =>
    cases ok with
    | false =>
      simp only [Server.getMessage, hr, Bool.not_false, if_true]
      exact ⟨rfl, rfl⟩
    | true =>
      simp only [Server.getMessage, hr, Bool.not_true, Bool.false_eq_true, if_false]
      exact ⟨rfl, rfl⟩

/-- C11. Status and body of GET: for every server, store and code,
`getMessage` makes one `GetAndDelete` call and responds HTTP 500 when it
returns an error, HTTP 404 (without a body) when it returns found=false
without error, and HTTP 200 with content type `text/plain` and a body equal
to the returned blob when it returns found=true without error.  With the
Redis store the same 404 is given when the code never existed, when it is
reserved but not populated, and when it was already consumed by an earlier
GET, which itself was answered 200 with the stored value. -/
theorem C11_get_status_and_body (s : Server σ) (x : Exchange σ) (r : Request)
    (hw : x.w.code = none) (hb : x.w.body = "") :
    (s.getMessage x r).calls
      = x.calls ++ [Call.GetAndDelete (strings.TrimPrefix r.Path "/message/")] ∧
    ((s.store.GetAndDelete x.st (strings.TrimPrefix r.Path "/message/")).2.2.2 ≠ none →
      (s.getMessage x r).w.status = StatusInternalServerError) ∧
    ((s.store.GetAndDelete x.st (strings.TrimPrefix r.Path "/message/")).2.2 = (false, none) →
      (s.getMessage x r).w.status = StatusNotFound ∧ (s.getMessage x r).w.body = "") ∧
    ((s.store.GetAndDelete x.st (strings.TrimPrefix r.Path "/message/")).2.2 = (true, none) →
      (s.getMessage x r).w.status = StatusOK ∧
      (s.getMessage x r).w.Get "Content-Type" = "text/plain" ∧
      (s.getMessage x r).w.body
        = (s.store.GetAndDelete x.st (strings.TrimPrefix r.Path "/message/")).2.1) ∧
    (∀ (db : DB) (lg : Bool) (tok : Option Chan) (rd1 rd2 : rand.Reader),
      (db (redisstore.key (strings.TrimPrefix r.Path "/message/")) = none →
        ((⟨s.cfg, redisstore.Store, lg, tok⟩ : Server DB).getMessage
          (Exchange.start db rd1) r).w.status = StatusNotFound) ∧
      (∀ t, db (redisstore.key (strings.TrimPrefix r.Path "/message/")) = some ⟨"", t⟩ →
        ((⟨s.cfg, redisstore.Store, lg, tok⟩ : Server DB).getMessage
          (Exchange.start db rd1) r).w.status = StatusNotFound) ∧
      (∀ v t, db (redisstore.key (strings.TrimPrefix r.Path "/message/")) = some ⟨v, t⟩ →
        v ≠ "" →
        ((⟨s.cfg, redisstore.Store, lg, tok⟩ : Server DB).getMessage
          (Exchange.start db rd1) r).w.status = StatusOK ∧
        ((⟨s.cfg, redisstore.Store, lg, tok⟩ : Server DB).getMessage
          (Exchange.start db rd1) r).w.body = v ∧
        ((⟨s.cfg, redisstore.Store, lg, tok⟩ : Server DB).getMessage
          (Exchange.start
            ((⟨s.cfg, redisstore.Store, lg, tok⟩ : Server DB).getMessage
              (Exchange.start db rd1) r).st rd2) r).w.status = StatusNotFound)) := by
  have hns := get_message_not_served s x r hw
  refine ⟨(get_message_st s x r).2, fun he => (hns.1 he).1,
    fun he => ⟨(hns.2 he).1, by rw [(hns.2 he).2, hb]⟩, fun he => ?_, ?_⟩
  · have hf := get_message_found s x r hw he
    refine ⟨hf.2.1, hf.2.2, ?_⟩
    rw [hf.1, hb]
    simp
  · intro db lg tok rd1 rd2
    have hmiss : ∀ (d : DB) (rd : rand.Reader),
        (redisstore.GetAndDelete d (strings.TrimPrefix r.Path "/message/")).2.2
          = (false, none) →
        ((⟨s.cfg, redisstore.Store, lg, tok⟩ : Server DB).getMessage
          (Exchange.start d rd) r).w.status = StatusNotFound := by
      intro d rd hd
      exact ((get_message_not_served (⟨s.cfg, redisstore.Store, lg, tok⟩ : Server DB)
        (Exchange.start d rd) r rfl).2 hd).1
    refine ⟨fun habs => hmiss db rd1 (by rw [redisstore.getdel_absent habs]),
      fun t hres => hmiss db rd1 (by rw [redisstore.getdel_reserved hres]),
      fun v t hpop hv => ?_⟩
    have hg := redisstore.getdel_populated hpop hv
    have hf := get_message_found (⟨s.cfg, redisstore.Store, lg, tok⟩ : Server DB)
      (Exchange.start db rd1) r rfl (congrArg (fun p => p.2.2) hg)
    have hst := (get_message_st (⟨s.cfg, redisstore.Store, lg, tok⟩ : Server DB)
      (Exchange.start db rd1) r).1
    have hst2 : ((⟨s.cfg, redisstore.Store, lg, tok⟩ : Server DB).getMessage
        (Exchange.start db rd1) r).st
        = db.del (redisstore.key (strings.TrimPrefix r.Path "/message/")) :=
      hst.trans (congrArg (fun p => p.1) hg)
    have hv2 : "" ++ (redisstore.GetAndDelete db
        (strings.TrimPrefix r.Path "/message/")).2.1 = v := by
      rw [hg]; simp
    refine ⟨hf.2.1, hf.1.trans hv2, ?_⟩
    rw [hst2]
    exact hmiss _ rd2 (by rw [redisstore.getdel_absent (redisstore.del_same _ _)])

theorem C11_get_status_and_body_witness :
    ((newTestServer (mockStore.mk false false none "abc" true none none).storage).getMessage
        (Exchange.start () zeroReader) ⟨MethodGet, "/message/xyz", "", ""⟩).w.status
      = StatusOK ∧
    ((newTestServer (mockStore.mk false false none "abc" true none none).storage).getMessage
        (Exchange.start () zeroReader) ⟨MethodGet, "/message/xyz", "", ""⟩).w.Get
      "Content-Type" = "text/plain" ∧
    ((newTestServer (mockStore.mk false false none "abc" true none none).storage).getMessage
        (Exchange.start () zeroReader) ⟨MethodGet, "/message/xyz", "", ""⟩).w.body = "abc" :=
  (C11_get_status_and_body
    (newTestServer (mockStore.mk false false none "abc" true none none).storage)
    (Exchange.start () zeroReader) ⟨MethodGet, "/message/xyz", "", ""⟩ rfl rfl).2.2.2.1 rfl

end server

namespace server

open storage http

variable {σ : Type}

end server
